import Mathlib

/-!
# linked_list_demo.cpp : a lottery over a singly linked list

A shallow embedding of `src/source/linked_list_demo.cpp`.

* The free store is a list of records; the address of a record is its index,
  `none` is `nullptr`.  Records are never freed, so `new` returns the next index.
* `cin` is the list of whitespace-delimited tokens still to be read, `rand()` is a
  stream of integers with a read position, `new` fails according to an oracle that
  says whether the allocation made when `k` records exist throws `bad_alloc`.
* `cout` is the list of the texts written so far, one entry per output statement.
* A function either returns a value and a new world, calls `exit`, or has no result
  (it loops forever, or dereferences a pointer that is not a live record).
-/

namespace LinkedListDemo

/-! ## Constants -/

def MAX_NAMES : Int := 3
def MAX_LUCKY : Int := 10

def ERR_ALL_OK : Int := 0
def ERR_BAD_ALLOC : Int := 1
def ERR_NO_WINNER : Int := 2

/-! ## Data model -/

/-- The struct `ListItem`: a name, a random int, and the pointer to the next item. -/
structure ListItem where
  name : String := ""
  lucky : Int := 0
  pNext : Option Nat := none
  deriving DecidableEq, Repr

/-- Everything the program reads or writes. -/
structure World where
  /-- the free store: the record at address `a` is `heap[a]` -/
  heap : List ListItem
  /-- the global `g::pHead` -/
  pHead : Option Nat
  /-- tokens not yet extracted from `cin` -/
  cin : List String
  /-- the values `rand()` returns, in order, after `srand` -/
  rand : Nat → Int
  /-- how many values of `rand` have been consumed -/
  randPos : Nat
  /-- whether `new` throws `bad_alloc` when that many records are allocated already -/
  allocFails : Nat → Bool
  /-- what has been written to `cout`, oldest first -/
  cout : List String

/-- The result of running a function of the program. -/
inductive Run (α : Type) where
  /-- normal return -/
  | ret (a : α) (w : World) : Run α
  /-- the process ended through `exit(code)` -/
  | exited (code : Int) (w : World) : Run α
  /-- no result: the loop never ends or an invalid pointer is dereferenced -/
  | stuck : Run α

/-- Sequencing: run the continuation on a normal return, stop otherwise. -/
def Run.bind {α β : Type} (r : Run α) (k : α → World → Run β) : Run β :=
  match r with
  | .ret a w => k a w
  | .exited c w => .exited c w
  | .stuck => .stuck

/-- The exit status of the process, when it ends. -/
def Run.exitCode : Run Int → Option Int
  | .ret c _ => some c
  | .exited c _ => some c
  | .stuck => none

/-- The C++ operator `%` on `int`: the remainder of the truncating division. -/
def cRem (a b : Int) : Int := Int.tmod a b

/-- The call `rand()`: the next value of the stream. -/
def callRand (w : World) : Int × World :=
  (w.rand w.randPos, { w with randPos := w.randPos + 1 })

/-- Write through a pointer: replace the record at address `p`, if it is live. -/
def store (heap : List ListItem) (p : Nat) (f : ListItem → ListItem) : Option (List ListItem) :=
  match heap[p]? with
  | some it => some (heap.set p (f it))
  | none => none

/-! ## The texts written to `cout`, one per output statement -/

/-- The header of `CreateList`. -/
def headerLine (max : Int) : String := "\nEnter names for " ++ toString max ++ " players.\n"

/-- The prompt of `FillItem`. -/
def promptLine (numItem : Int) : String := "\nName for player " ++ toString numItem ++ ": "

/-- The diagnostic of `PrepareItem`; the text of `e.what()` is the usual one. -/
def allocFailedLine : String := "ListItem allocation failed: " ++ "std::bad_alloc" ++ "\n"

/-- The announcement of `DisplayWinningNumber`. -/
def winningLine (winner : Int) : String := "\nThe winning number is " ++ toString winner ++ "!\n"

/-- The line `FindWinner` displays for a record. -/
def itemLine (it : ListItem) : String :=
  "\n" ++ it.name ++ " has lucky number " ++ toString it.lucky ++ "\n"

/-- The message of `DisplayResults` when nobody won. -/
def noWinnerLine (lucky : Int) : String :=
  "\nSorry, there's no winner for lucky number " ++ toString lucky ++ "\n"

/-- The message of `DisplayResults` for the winner. -/
def winnerLine (it : ListItem) : String :=
  "\nThe winner is " ++ it.name ++ " with lucky number " ++ toString it.lucky ++ "\n"

/-! ## The functions of the program -/

/-- The function `FillItem`: prompt, read a name into the record, draw its lucky number.
At the end of the input the extraction fails and leaves the name as it was. -/
def FillItem (pItem : Nat) (numItem : Int) (w : World) : Run Unit :=
  let w1 := { w with cout := w.cout ++ [promptLine numItem] }
  let named : Option World :=
    match w1.cin with
    | [] => if pItem < w1.heap.length then some w1 else none
    | tok :: rest =>
      (store w1.heap pItem (fun it => { it with name := tok })).map
        (fun h => { w1 with heap := h, cin := rest })
  match named with
  | none => .stuck
  | some w2 =>
    let (r, w3) := callRand w2
    match store w3.heap pItem (fun it => { it with lucky := cRem r MAX_LUCKY + 1 }) with
    | none => .stuck
    | some h => .ret () { w3 with heap := h }

/-- The function `PrepareItem`: allocate a record, exit with `ERR_BAD_ALLOC` when the
allocation fails, fill the record otherwise. -/
def PrepareItem (numItem : Int) (w : World) : Run Nat :=
  if w.allocFails w.heap.length then
    .exited ERR_BAD_ALLOC
      { w with cout := w.cout ++ [allocFailedLine] }
  else
    let pItem := w.heap.length
    let w1 := { w with heap := w.heap ++ [{ name := "", lucky := 0, pNext := none }] }
    (FillItem pItem numItem w1).bind (fun _ w2 => .ret pItem w2)

/-- The function `AddItem`: link the record in front of the list. -/
def AddItem (pItem : Nat) (w : World) : Run Unit :=
  match store w.heap pItem (fun it => { it with pNext := w.pHead }) with
  | none => .stuck
  | some h => .ret () { w with heap := h, pHead := some pItem }

/-- The `for` loop of `CreateList`, from the counter value `i`.  The first argument
bounds the number of iterations still allowed. -/
def CreateList.loop (max : Int) : Nat → Int → World → Run Unit
  | fuel, i, w =>
    if i < max then
      match fuel with
      | 0 => .stuck
      | fuel + 1 =>
        (PrepareItem (i + 1) w).bind fun pItem w1 =>
        (AddItem pItem w1).bind fun _ w2 =>
        CreateList.loop max fuel (i + 1) w2
    else .ret () w

/-- The function `CreateList`: the header, then `max` records, each put at the head.
The loop runs `max` times when `max` is positive, so that many iterations are allowed. -/
def CreateList (max : Int) (w : World) : Run Unit :=
  let w1 := { w with cout := w.cout ++ [headerLine max] }
  CreateList.loop max max.toNat 0 w1

/-- The function `DisplayWinningNumber`: draw, display and return the winning number. -/
def DisplayWinningNumber (w : World) : Run Int :=
  let (r, w1) := callRand w
  let winner := cRem r MAX_LUCKY + 1
  .ret winner { w1 with cout := w1.cout ++ [winningLine winner] }

/-- The `while` loop of `FindWinner`, from the pointer `pItem`; the result is the
pointer at which the loop ends.  The first argument bounds the number of records that
may still be visited. -/
def FindWinner.loop (lucky : Int) : Nat → Option Nat → World → Run (Option Nat)
  | fuel, pItem, w =>
    match pItem with
    | none => .ret none w
    | some a =>
      match fuel with
      | 0 => .stuck
      | fuel + 1 =>
        match w.heap[a]? with
        | none => .stuck
        | some it =>
          let w1 := { w with cout := w.cout ++ [itemLine it] }
          if it.lucky = lucky then .ret (some a) w1
          else FindWinner.loop lucky fuel it.pNext w1

/-- The function `FindWinner`: scan from the head, displaying each record, up to the
first one with the winning number.  A scan that has visited more records than the store
holds is in a cycle without a match and never ends. -/
def FindWinner (lucky : Int) (w : World) : Run (Option Nat) :=
  (FindWinner.loop lucky (w.heap.length + 1) w.pHead w).bind fun pItem w1 =>
  .ret pItem { w1 with cout := w1.cout ++ ["\n"] }

/-- The function `DisplayResults`: report the winner or that there is none. -/
def DisplayResults (pWinner : Option Nat) (lucky : Int) (w : World) : Run Int :=
  match pWinner with
  | none =>
    .ret ERR_NO_WINNER
      { w with cout := w.cout ++ [noWinnerLine lucky] }
  | some a =>
    match w.heap[a]? with
    | none => .stuck
    | some it =>
      .ret ERR_ALL_OK { w with cout := w.cout ++ [winnerLine it] }

/-- The world at process start: an empty store, `g::pHead = nullptr`, nothing consumed
or printed.  The stream `rand` is the one selected by the call of `srand`. -/
def initWorld (cin : List String) (rand : Nat → Int) (allocFails : Nat → Bool) : World :=
  { heap := [], pHead := none, cin := cin, rand := rand, randPos := 0,
    allocFails := allocFails, cout := [] }

/-- The function `main`. -/
def main (cin : List String) (rand : Nat → Int) (allocFails : Nat → Bool) : Run Int :=
  (CreateList MAX_NAMES (initWorld cin rand allocFails)).bind fun _ w1 =>
  (DisplayWinningNumber w1).bind fun lucky w2 =>
  (FindWinner lucky w2).bind fun pItem w3 =>
  DisplayResults pItem lucky w3

/-! ## Reading the list off the store -/

/-- The list as it is read from a pointer: `Chain heap p cells` holds when following
`pNext` from `p` visits the records of `cells`, each given with its address, in that
order, and then reaches `nullptr`. -/
def Chain (heap : List ListItem) : Option Nat → List (Nat × ListItem) → Prop
  | p, [] => p = none
  | p, c :: rest => p = some c.1 ∧ heap[c.1]? = some c.2 ∧ Chain heap c.2.pNext rest

/-- What a record carries: its name and its lucky number. -/
def payload (c : Nat × ListItem) : String × Int := (c.2.name, c.2.lucky)

/-- The reference search: the first cell of the list whose lucky number is `lucky`. -/
def firstMatch (lucky : Int) (cells : List (Nat × ListItem)) : Option (Nat × ListItem) :=
  cells.find? (fun c => decide (c.2.lucky = lucky))

/-- The cells a scan for `lucky` visits: the list up to and including the first match,
the whole list when there is none. -/
def scanned (lucky : Int) : List (Nat × ListItem) → List (Nat × ListItem)
  | [] => []
  | c :: rest => if c.2.lucky = lucky then [c] else c :: scanned lucky rest

/-- The lucky number computed from a value of `rand()`. -/
def luckyOf (r : Int) : Int := cRem r MAX_LUCKY + 1

/-- The record an iteration of the loop of `CreateList` creates in the world `w`: the
next token as name (no name at the end of the input), the next lucky number, and the
head of the list as successor. -/
def freshItem (w : World) : ListItem :=
  { name := w.cin.headD "", lucky := luckyOf (w.rand w.randPos), pNext := w.pHead }

/-- One completed iteration of the loop of `CreateList` with counter `i`: the record is
allocated at the end of the store and becomes the head. -/
def pushed (i : Int) (w : World) : World :=
  { w with
    heap := w.heap ++ [freshItem w]
    pHead := some w.heap.length
    cin := w.cin.tail
    randPos := w.randPos + 1
    cout := w.cout ++ [promptLine (i + 1)] }

/-- The world after `n` completed iterations, the first with counter `i`. -/
def builtFrom : Nat → Int → World → World
  | 0, _, w => w
  | n + 1, i, w => builtFrom n (i + 1) (pushed i w)

/-- The name and lucky number of the `k`-th record created from the world `w`, counting
from 0: the `k`-th token still to be read and the `k`-th value still to be drawn. -/
def entry (w : World) (k : Nat) : String × Int :=
  (w.cin.getD k "", luckyOf (w.rand (w.randPos + k)))

/-- The `k`-th record created from the world `w`, with its address: it is allocated
after the records there are and points to the record created before it, the first one
to the head there was. -/
def cellAt (w : World) (k : Nat) : Nat × ListItem :=
  (w.heap.length + k,
   { name := (entry w k).1, lucky := (entry w k).2,
     pNext := if k = 0 then w.pHead else some (w.heap.length + k - 1) })

/-- The lucky numbers of the `n` draws from position `pos` of the stream. -/
def draws (rand : Nat → Int) (pos n : Nat) : List Int :=
  (List.range n).map (fun k => luckyOf (rand (pos + k)))

/-- The world in which the loop of `CreateList` starts in `main`: the world at process
start with the header printed. -/
def headerWorld (cin : List String) (rand : Nat → Int) (allocFails : Nat → Bool) : World :=
  { initWorld cin rand allocFails with cout := [headerLine MAX_NAMES] }

/-- The world in which `main` calls `FindWinner` when no allocation failed: three
records created, the fourth value of the stream drawn and announced. -/
def drawnWorld (cin : List String) (rand : Nat → Int) (allocFails : Nat → Bool) : World :=
  { builtFrom 3 0 (headerWorld cin rand allocFails) with
    randPos := 4
    cout := (builtFrom 3 0 (headerWorld cin rand allocFails)).cout
      ++ [winningLine (luckyOf (rand 3))] }

/-- The list `main` builds when no allocation failed, read from the head. -/
def mainCells (cin : List String) (rand : Nat → Int) (allocFails : Nat → Bool) :
    List (Nat × ListItem) :=
  ((List.range 3).map (cellAt (headerWorld cin rand allocFails))).reverse

/-- The world in which `main` calls `DisplayResults` when no allocation failed: the
records scanned have been displayed, and a line feed after them. -/
def scannedWorld (cin : List String) (rand : Nat → Int) (allocFails : Nat → Bool) : World :=
  { drawnWorld cin rand allocFails with
    cout := (drawnWorld cin rand allocFails).cout
      ++ (scanned (luckyOf (rand 3)) (mainCells cin rand allocFails)).map (fun c => itemLine c.2)
      ++ ["\n"] }

/-- The number of values `r` of `rand()`, from 0 to `randMax`, that give the lucky
number `k`. -/
def luckyCount (randMax : Nat) (k : Int) : Nat :=
  Nat.count (fun r : Nat => luckyOf (r : Int) = k) (randMax + 1)

/-- The invariant of the build phase: following `pNext` from the head reaches `nullptr`
after finitely many records, no record is visited twice, and the number of records
reached is `created`, the number of records created so far. -/
def WellFormed (created : Nat) (w : World) : Prop :=
  ∃ cells : List (Nat × ListItem),
    Chain w.heap w.pHead cells ∧ (cells.map Prod.fst).Nodup ∧ cells.length = created

/-! ## A concrete run -/

/-- A store in which the first allocation succeeds and the second fails. -/
def secondAllocFails : Nat → Bool := fun k => k == 1

/-- The names of the scenario. -/
def scenarioNames : List String := ["Ann", "Bo", "Cy"]

/-- A random stream that gives the lucky numbers 3, 7, 5 and then the winning number 7. -/
def scenarioRand : Nat → Int := fun i => [2, 6, 4, 6].getD i 0

/-- A random stream that gives the lucky numbers 7, 7, 5 and then the winning number 7. -/
def tieRand : Nat → Int := fun i => [6, 6, 4, 6].getD i 0

/-- A store in which every allocation succeeds. -/
def noAllocFailure : Nat → Bool := fun _ => false

/-- The list of the scenario, read from the head, as `CreateList` lays it out. -/
def scenarioCells : List (Nat × ListItem) :=
  [(2, { name := "Cy", lucky := 5, pNext := some 1 }),
   (1, { name := "Bo", lucky := 7, pNext := some 0 }),
   (0, { name := "Ann", lucky := 3, pNext := none })]

/-- A world that holds the list of the scenario and nothing else. -/
def scenarioWorld : World :=
  { heap := [{ name := "Ann", lucky := 3, pNext := none },
             { name := "Bo", lucky := 7, pNext := some 0 },
             { name := "Cy", lucky := 5, pNext := some 1 }]
    pHead := some 2
    cin := []
    rand := scenarioRand
    randPos := 3
    allocFails := noAllocFailure
    cout := [] }

/-- A world with the records of Ann and Bo in the list and the record of Cy allocated
and filled but not yet added. -/
def beforeAddWorld : World :=
  { heap := [{ name := "Ann", lucky := 3, pNext := none },
             { name := "Bo", lucky := 7, pNext := some 0 },
             { name := "Cy", lucky := 5, pNext := none }]
    pHead := some 1
    cin := []
    rand := scenarioRand
    randPos := 3
    allocFails := noAllocFailure
    cout := [] }

/-- The list of `beforeAddWorld`, read from the head. -/
def beforeAddCells : List (Nat × ListItem) :=
  [(1, { name := "Bo", lucky := 7, pNext := some 0 }),
   (0, { name := "Ann", lucky := 3, pNext := none })]

/-! ## Lemmas on chains -/

theorem Chain.append_heap {heap : List ListItem} (more : List ListItem) :
    ∀ {cells : List (Nat × ListItem)} {p : Option Nat},
      Chain heap p cells → Chain (heap ++ more) p cells := by
  intro cells
  induction cells with
  | nil => intro p h; exact h
  | cons c rest ih =>
    intro p h
    obtain ⟨hp, hc, hrest⟩ := h
    refine ⟨hp, ?_, ih hrest⟩
    have hlt : c.1 < heap.length := by
      by_contra hge
      rw [List.getElem?_eq_none (by omega)] at hc
      exact Option.noConfusion hc
    rw [List.getElem?_append_left hlt]
    exact hc

theorem Chain.unique {heap : List ListItem} :
    ∀ {xs ys : List (Nat × ListItem)} {p : Option Nat},
      Chain heap p xs → Chain heap p ys → xs = ys := by
  intro xs
  induction xs with
  | nil =>
    intro ys p hx hy
    cases ys with
    | nil => rfl
    | cons c rest =>
      have h1 : p = none := hx
      have h2 : p = some c.1 := hy.1
      rw [h1] at h2
      exact Option.noConfusion h2
  | cons c rest ih =>
    intro ys p hx hy
    cases ys with
    | nil =>
      have h1 : p = none := hy
      have h2 : p = some c.1 := hx.1
      rw [h1] at h2
      exact Option.noConfusion h2
    | cons d rest2 =>
      obtain ⟨hp, hc, hrest⟩ := hx
      obtain ⟨hq, hd, hrest2⟩ := hy
      have h1 : c.1 = d.1 := by
        rw [hp] at hq
        exact Option.some.inj hq
      have h2 : c.2 = d.2 := by
        rw [h1, hd] at hc
        exact (Option.some.inj hc).symm
      have hcd : c = d := Prod.ext h1 h2
      subst hcd
      rw [ih hrest hrest2]

theorem Chain.suffix {heap : List ListItem} :
    ∀ {xs ys : List (Nat × ListItem)} {p : Option Nat},
      Chain heap p (xs ++ ys) → ∃ q, Chain heap q ys := by
  intro xs
  induction xs with
  | nil => intro ys p h; exact ⟨p, h⟩
  | cons c rest ih => intro ys p h; exact ih h.2.2

theorem Chain.addr_lt {heap : List ListItem} :
    ∀ {cells : List (Nat × ListItem)} {p : Option Nat},
      Chain heap p cells → ∀ c ∈ cells, c.1 < heap.length := by
  intro cells
  induction cells with
  | nil => intro p _ c hc; exact absurd hc (List.not_mem_nil c)
  | cons d rest ih =>
    intro p h c hc
    rcases List.mem_cons.mp hc with rfl | hmem
    · by_contra hge
      have := h.2.1
      rw [List.getElem?_eq_none (by omega)] at this
      exact Option.noConfusion this
    · exact ih h.2.2 c hmem

theorem Chain.nodup {heap : List ListItem} :
    ∀ {cells : List (Nat × ListItem)} {p : Option Nat},
      Chain heap p cells → (cells.map Prod.fst).Nodup := by
  intro cells
  induction cells with
  | nil => intro p _; exact List.nodup_nil
  | cons c rest ih =>
    intro p h
    rw [List.map_cons, List.nodup_cons]
    refine ⟨?_, ih h.2.2⟩
    intro hmem
    obtain ⟨d, hd, hdc⟩ := List.mem_map.mp hmem
    obtain ⟨l1, l2, hsplit⟩ := List.append_of_mem hd
    have hrest : Chain heap c.2.pNext (l1 ++ d :: l2) := hsplit ▸ h.2.2
    obtain ⟨q, hq⟩ := Chain.suffix hrest
    have hq1 : q = some c.1 := by rw [← hdc]; exact hq.1
    have hfull : Chain heap (some c.1) (c :: rest) := ⟨rfl, h.2.1, h.2.2⟩
    have heq := Chain.unique hfull (hq1 ▸ hq)
    have hlen := congrArg List.length heq
    rw [hsplit] at hlen
    simp at hlen
    omega

theorem Chain.length_le {heap : List ListItem} {cells : List (Nat × ListItem)}
    {p : Option Nat} (h : Chain heap p cells) : cells.length ≤ heap.length := by
  have hnd := Chain.nodup h
  have hsub : (cells.map Prod.fst).toFinset ⊆ Finset.range heap.length := by
    intro a ha
    rw [List.mem_toFinset] at ha
    obtain ⟨c, hc, rfl⟩ := List.mem_map.mp ha
    exact Finset.mem_range.mpr (Chain.addr_lt h c hc)
  have hcard := Finset.card_le_card hsub
  rw [List.toFinset_card_of_nodup hnd, Finset.card_range, List.length_map] at hcard
  exact hcard

/-! ## The scan of `FindWinner` -/

theorem FindWinner.loop_chain (lucky : Int) :
    ∀ (cells : List (Nat × ListItem)) (fuel : Nat) (p : Option Nat) (w : World),
      Chain w.heap p cells → cells.length ≤ fuel →
      FindWinner.loop lucky fuel p w =
        .ret ((firstMatch lucky cells).map Prod.fst)
          { w with cout := w.cout ++ (scanned lucky cells).map (fun c => itemLine c.2) } := by
  intro cells
  induction cells with
  | nil =>
    intro fuel p w h _
    have hp : p = none := h
    subst hp
    cases fuel <;> simp [FindWinner.loop, firstMatch, scanned]
  | cons c rest ih =>
    intro fuel p w h hfuel
    obtain ⟨hp, hc, hrest⟩ := h
    subst hp
    cases fuel with
    | zero => simp at hfuel
    | succ fuel =>
      have hfuel2 : rest.length ≤ fuel := by simpa using hfuel
      by_cases hl : c.2.lucky = lucky
      · simp [FindWinner.loop, hc, hl, firstMatch, scanned]
      · have := ih fuel c.2.pNext { w with cout := w.cout ++ [itemLine c.2] } hrest hfuel2
        simp [FindWinner.loop, hc, hl, firstMatch, scanned, this]

/-- On a well-formed list `FindWinner` returns the address of the first match and
appends to `cout` the lines of the cells scanned and a line feed. -/
theorem FindWinner_chain (lucky : Int) (w : World) (cells : List (Nat × ListItem))
    (h : Chain w.heap w.pHead cells) :
    FindWinner lucky w =
      .ret ((firstMatch lucky cells).map Prod.fst)
        { w with cout := w.cout ++ (scanned lucky cells).map (fun c => itemLine c.2) ++ ["\n"] } := by
  have hlen : cells.length ≤ w.heap.length + 1 := Nat.le_succ_of_le (Chain.length_le h)
  simp [FindWinner, FindWinner.loop_chain lucky cells _ _ w h hlen, Run.bind]

theorem firstMatch_eq_none {lucky : Int} {cells : List (Nat × ListItem)} :
    firstMatch lucky cells = none ↔ ∀ c ∈ cells, c.2.lucky ≠ lucky := by
  simp [firstMatch, List.find?_eq_none]

theorem firstMatch_split {lucky : Int} {pre post : List (Nat × ListItem)} {c : Nat × ListItem}
    (hpre : ∀ d ∈ pre, d.2.lucky ≠ lucky) (hc : c.2.lucky = lucky) :
    firstMatch lucky (pre ++ c :: post) = some c := by
  induction pre with
  | nil => simp [firstMatch, hc]
  | cons d rest ih =>
    have hd : d.2.lucky ≠ lucky := hpre d (List.mem_cons_self d rest)
    have := ih (fun e he => hpre e (List.mem_cons_of_mem d he))
    simpa [firstMatch, hd] using this

theorem Chain.mem_heap {heap : List ListItem} :
    ∀ {cells : List (Nat × ListItem)} {p : Option Nat},
      Chain heap p cells → ∀ c ∈ cells, heap[c.1]? = some c.2 := by
  intro cells
  induction cells with
  | nil => intro p _ c hc; exact absurd hc (List.not_mem_nil c)
  | cons d rest ih =>
    intro p h c hc
    rcases List.mem_cons.mp hc with rfl | hmem
    · exact h.2.1
    · exact ih h.2.2 c hmem

/-! ## The loop of `CreateList` -/

theorem iteration_eq {β : Type} (i : Int) (w : World)
    (hok : w.allocFails w.heap.length = false) (k : Unit → World → Run β) :
    ((PrepareItem (i + 1) w).bind fun pItem w1 => (AddItem pItem w1).bind k)
      = k () (pushed i w) := by
  cases hcin : w.cin with
  | nil =>
    simp [PrepareItem, FillItem, AddItem, store, callRand, Run.bind, pushed, freshItem, luckyOf,
      hok, hcin]
  | cons tok rest =>
    simp [PrepareItem, FillItem, AddItem, store, callRand, Run.bind, pushed, freshItem, luckyOf,
      hok, hcin]

theorem pushed_allocFails (i : Int) (w : World) : (pushed i w).allocFails = w.allocFails := rfl

theorem pushed_heap_length (i : Int) (w : World) :
    (pushed i w).heap.length = w.heap.length + 1 := by
  simp [pushed]

theorem CreateList.loop_eq (max : Int) :
    ∀ (n : Nat) (i : Int) (w : World), (max - i).toNat = n →
      (∀ k, k < n → w.allocFails (w.heap.length + k) = false) →
      CreateList.loop max n i w = .ret () (builtFrom n i w) := by
  intro n
  induction n with
  | zero =>
    intro i w hn _
    have hle : ¬ i < max := by omega
    simp [CreateList.loop, hle, builtFrom]
  | succ n ih =>
    intro i w hn hok
    have hlt : i < max := by omega
    have hn2 : (max - (i + 1)).toNat = n := by omega
    have h0 : w.allocFails w.heap.length = false := by simpa using hok 0 (Nat.succ_pos n)
    have hok2 : ∀ k, k < n →
        (pushed i w).allocFails ((pushed i w).heap.length + k) = false := by
      intro k hk
      rw [pushed_allocFails, pushed_heap_length]
      have := hok (k + 1) (Nat.succ_lt_succ hk)
      rwa [show w.heap.length + 1 + k = w.heap.length + (k + 1) by omega]
    rw [CreateList.loop]
    simp only [hlt, if_true]
    rw [iteration_eq i w h0, ih (i + 1) (pushed i w) hn2 hok2]
    rfl

/-- When no allocation fails `CreateList` returns, having printed the header and run
`max` iterations (none when `max` is not positive). -/
theorem CreateList_eq (max : Int) (w : World)
    (hok : ∀ k, k < max.toNat → w.allocFails (w.heap.length + k) = false) :
    CreateList max w =
      .ret () (builtFrom max.toNat 0 { w with cout := w.cout ++ [headerLine max] }) := by
  rw [CreateList]
  exact CreateList.loop_eq max max.toNat 0 _ (by simp) hok

theorem getD_tail (l : List String) (k : Nat) : l.tail.getD k "" = l.getD (k + 1) "" := by
  cases l <;> simp

theorem cellAt_pushed (i : Int) (w : World) (k : Nat) :
    cellAt (pushed i w) k = cellAt w (k + 1) := by
  have h1 : w.randPos + 1 + k = w.randPos + (k + 1) := by omega
  have h2 : w.heap.length + 1 + k = w.heap.length + (k + 1) := by omega
  cases k with
  | zero => simp [cellAt, entry, pushed, getD_tail]
  | succ k => simp [cellAt, entry, pushed, getD_tail, h1, h2]

theorem cellAt_zero (w : World) : cellAt w 0 = (w.heap.length, freshItem w) := by
  cases hcin : w.cin <;> simp [cellAt, entry, freshItem, hcin]

theorem pushed_chain (i : Int) (w : World) (cells : List (Nat × ListItem))
    (h : Chain w.heap w.pHead cells) :
    Chain (pushed i w).heap (pushed i w).pHead (cellAt w 0 :: cells) := by
  rw [cellAt_zero]
  refine ⟨rfl, ?_, ?_⟩
  · simp [pushed]
  · exact Chain.append_heap _ h

/-- After `n` iterations the list is the `n` new records, the last created first,
followed by the list there was. -/
theorem builtFrom_chain :
    ∀ (n : Nat) (i : Int) (w : World) (cells : List (Nat × ListItem)),
      Chain w.heap w.pHead cells →
      Chain (builtFrom n i w).heap (builtFrom n i w).pHead
        (((List.range n).map (cellAt w)).reverse ++ cells) := by
  intro n
  induction n with
  | zero => intro i w cells h; exact h
  | succ n ih =>
    intro i w cells h
    have hch := ih (i + 1) (pushed i w) _ (pushed_chain i w cells h)
    have hmap : (List.range n).map (cellAt (pushed i w))
        = (List.range n).map (cellAt w ∘ Nat.succ) :=
      List.map_congr_left (fun k _ => cellAt_pushed i w k)
    rw [hmap] at hch
    rw [List.range_succ_eq_map]
    simpa [builtFrom, List.map_map] using hch

theorem builtFrom_rand : ∀ (n : Nat) (i : Int) (w : World), (builtFrom n i w).rand = w.rand := by
  intro n
  induction n with
  | zero => intro i w; rfl
  | succ n ih => intro i w; rw [builtFrom, ih]; rfl

theorem builtFrom_randPos :
    ∀ (n : Nat) (i : Int) (w : World), (builtFrom n i w).randPos = w.randPos + n := by
  intro n
  induction n with
  | zero => intro i w; rfl
  | succ n ih => intro i w; rw [builtFrom, ih]; simp only [pushed]; omega

theorem payload_cellAt (w : World) (k : Nat) : payload (cellAt w k) = entry w k := rfl

theorem zip_draws (rest : List String) (f : Nat → Int) :
    ∀ (names : List String),
      (List.range names.length).map (fun k => ((names ++ rest).getD k "", f k))
        = names.zip ((List.range names.length).map f) := by
  intro names
  induction names generalizing f with
  | nil => rfl
  | cons a t ih =>
    have := ih (f ∘ Nat.succ)
    simp only [List.length_cons, List.range_succ_eq_map, List.map_cons, List.map_map,
      List.zip_cons_cons]
    congr 1

/-- Among the records created, read from the head, the first with a given property is
the one created last among those that have it. -/
theorem find_reverse_range {α : Type} (P : α → Bool) (f : Nat → α) :
    ∀ (N k : Nat), k < N → P (f k) = true → (∀ j, k < j → j < N → P (f j) = false) →
      ((List.range N).map f).reverse.find? P = some (f k) := by
  intro N
  induction N with
  | zero => intro k hk; exact absurd hk (Nat.not_lt_zero k)
  | succ N ih =>
    intro k hk hP hlater
    rw [List.range_succ, List.map_append, List.reverse_append]
    simp only [List.map_cons, List.map_nil, List.reverse_cons, List.reverse_nil, List.nil_append,
      List.singleton_append]
    by_cases hkN : k = N
    · subst hkN
      rw [List.find?_cons_of_pos _ hP]
    · have hk2 : k < N := by omega
      have hN : P (f N) = false := hlater N hk2 (Nat.lt_succ_self N)
      rw [List.find?_cons_of_neg _ (by simp [hN])]
      exact ih k hk2 hP (fun j h1 h2 => hlater j h1 (Nat.lt_succ_of_lt h2))

theorem firstMatch_mem {lucky : Int} {cells : List (Nat × ListItem)} {c : Nat × ListItem}
    (h : firstMatch lucky cells = some c) : c ∈ cells ∧ c.2.lucky = lucky := by
  refine ⟨List.mem_of_find?_eq_some h, ?_⟩
  have := List.find?_some h
  simpa using this

theorem firstMatch_unique {lucky : Int} {cells : List (Nat × ListItem)} {c : Nat × ListItem}
    (hmem : c ∈ cells) (hc : c.2.lucky = lucky)
    (honly : ∀ d ∈ cells, d.2.lucky = lucky → d = c) : firstMatch lucky cells = some c := by
  cases hfind : firstMatch lucky cells with
  | none => exact absurd hc (firstMatch_eq_none.mp hfind c hmem)
  | some d =>
    obtain ⟨hd, hdl⟩ := firstMatch_mem hfind
    rw [honly d hd hdl]

theorem DisplayWinningNumber_eq (w : World) :
    DisplayWinningNumber w =
      .ret (luckyOf (w.rand w.randPos))
        { w with randPos := w.randPos + 1,
                 cout := w.cout ++ [winningLine (luckyOf (w.rand w.randPos))] } := rfl

theorem luckyOf_bounds (r : Int) (h0 : 0 ≤ r) : 1 ≤ luckyOf r ∧ luckyOf r ≤ 10 := by
  have h1 : 0 ≤ Int.tmod r 10 := Int.tmod_nonneg 10 h0
  have h2 : Int.tmod r 10 < 10 := Int.tmod_lt_of_pos r (by decide)
  simp only [luckyOf, cRem, MAX_LUCKY]
  omega

theorem scanned_of_no_match {lucky : Int} :
    ∀ {cells : List (Nat × ListItem)}, (∀ c ∈ cells, c.2.lucky ≠ lucky) →
      scanned lucky cells = cells := by
  intro cells
  induction cells with
  | nil => intro _; rfl
  | cons c rest ih =>
    intro h
    have hc : c.2.lucky ≠ lucky := h c (List.mem_cons_self c rest)
    simp [scanned, hc, ih (fun d hd => h d (List.mem_cons_of_mem c hd))]

theorem FillItem_live (pItem : Nat) (numItem : Int) (w : World) (hlive : pItem < w.heap.length) :
    ∃ w' it, FillItem pItem numItem w = .ret () w' ∧ w'.heap[pItem]? = some it ∧
      it.lucky = cRem (w.rand w.randPos) MAX_LUCKY + 1 := by
  have hget : w.heap[pItem]? = some w.heap[pItem] := List.getElem?_eq_getElem hlive
  cases hcin : w.cin with
  | nil => simp [FillItem, store, callRand, hcin, hlive, hget]
  | cons tok rest => simp [FillItem, store, callRand, hcin, hlive, hget]

theorem CreateList_main (cin : List String) (rand : Nat → Int) (allocFails : Nat → Bool)
    (hok : ∀ k, k < 3 → allocFails k = false) :
    CreateList MAX_NAMES (initWorld cin rand allocFails)
      = .ret () (builtFrom 3 0 (headerWorld cin rand allocFails)) :=
  CreateList_eq MAX_NAMES (initWorld cin rand allocFails) (by simpa [initWorld, MAX_NAMES] using hok)

theorem drawnWorld_chain (cin : List String) (rand : Nat → Int) (allocFails : Nat → Bool) :
    Chain (drawnWorld cin rand allocFails).heap (drawnWorld cin rand allocFails).pHead
      (mainCells cin rand allocFails) := by
  have h := builtFrom_chain 3 0 (headerWorld cin rand allocFails) [] rfl
  rw [List.append_nil] at h
  exact h

/-- When no allocation fails `main` is `DisplayResults` called with the result of the
scan of the three records for the number drawn fourth. -/
theorem main_eq (cin : List String) (rand : Nat → Int) (allocFails : Nat → Bool)
    (hok : ∀ k, k < 3 → allocFails k = false) :
    main cin rand allocFails =
      (FindWinner (luckyOf (rand 3)) (drawnWorld cin rand allocFails)).bind
        fun pItem w3 => DisplayResults pItem (luckyOf (rand 3)) w3 := by
  have hr : (builtFrom 3 0 (headerWorld cin rand allocFails)).rand
      (builtFrom 3 0 (headerWorld cin rand allocFails)).randPos = rand 3 := by
    rw [builtFrom_rand, builtFrom_randPos]
    rfl
  have hp : (builtFrom 3 0 (headerWorld cin rand allocFails)).randPos + 1 = 4 := by
    rw [builtFrom_randPos]
    rfl
  rw [main, CreateList_main cin rand allocFails hok]
  simp only [Run.bind, DisplayWinningNumber_eq, hr, hp]
  rfl

/-- When no allocation fails `main` is `DisplayResults` called with the first match of
the list built, for the number drawn fourth, after the scan has been displayed. -/
theorem main_eq_DisplayResults (cin : List String) (rand : Nat → Int)
    (allocFails : Nat → Bool) (hok : ∀ k, k < 3 → allocFails k = false) :
    main cin rand allocFails =
      DisplayResults ((firstMatch (luckyOf (rand 3)) (mainCells cin rand allocFails)).map Prod.fst)
        (luckyOf (rand 3)) (scannedWorld cin rand allocFails) := by
  rw [main_eq cin rand allocFails hok,
    FindWinner_chain (luckyOf (rand 3)) _ _ (drawnWorld_chain cin rand allocFails)]
  rfl

/-- When no allocation fails `main` returns: 2 when no record of the list built has the
number drawn, 0 when one has. -/
theorem main_returns (cin : List String) (rand : Nat → Int) (allocFails : Nat → Bool)
    (hok : ∀ k, k < 3 → allocFails k = false) :
    (firstMatch (luckyOf (rand 3)) (mainCells cin rand allocFails) = none ∧
      main cin rand allocFails = .ret 2
        { scannedWorld cin rand allocFails with
          cout := (scannedWorld cin rand allocFails).cout ++ [noWinnerLine (luckyOf (rand 3))] }) ∨
    (∃ c, firstMatch (luckyOf (rand 3)) (mainCells cin rand allocFails) = some c ∧
      main cin rand allocFails = .ret 0
        { scannedWorld cin rand allocFails with
          cout := (scannedWorld cin rand allocFails).cout ++ [winnerLine c.2] }) := by
  rw [main_eq_DisplayResults cin rand allocFails hok]
  cases hfind : firstMatch (luckyOf (rand 3)) (mainCells cin rand allocFails) with
  | none => exact Or.inl ⟨rfl, rfl⟩
  | some c =>
    refine Or.inr ⟨c, rfl, ?_⟩
    have hlive : (scannedWorld cin rand allocFails).heap[c.1]? = some c.2 :=
      Chain.mem_heap (drawnWorld_chain cin rand allocFails) c (firstMatch_mem hfind).1
    simp only [Option.map_some', DisplayResults, hlive]
    rfl

theorem luckyOf_natCast (r : Nat) : luckyOf (r : Int) = ((r % 10 : Nat) : Int) + 1 := by
  simp only [luckyOf, cRem, MAX_LUCKY]
  rfl

theorem luckyCount_eq (randMax : Nat) (k : Int) (h1 : 1 ≤ k) (h10 : k ≤ 10) :
    luckyCount randMax k
      = (randMax + 1) / 10 + if (k - 1).toNat < (randMax + 1) % 10 then 1 else 0 := by
  have hv : (k - 1).toNat % 10 = (k - 1).toNat := Nat.mod_eq_of_lt (by omega)
  have hpred : ∀ r : Nat, luckyOf (r : Int) = k ↔ r ≡ (k - 1).toNat [MOD 10] := by
    intro r
    rw [luckyOf_natCast, Nat.ModEq, hv]
    omega
  have hcount := Nat.count_modEq_card (r := 10) (randMax + 1) (by decide) (k - 1).toNat
  rw [hv] at hcount
  rw [← hcount, luckyCount]
  simp only [hpred]

/-- The run of the scenario: three names, lucky numbers 3, 7, 5, winning number 7. -/
theorem scenario_run (rest : List String) (rand : Nat → Int) (allocFails : Nat → Bool)
    (hok : ∀ k, k < 3 → allocFails k = false)
    (h0 : luckyOf (rand 0) = 3) (h1 : luckyOf (rand 1) = 7) (h2 : luckyOf (rand 2) = 5)
    (h3 : luckyOf (rand 3) = 7) :
    ∃ w, main ("Ann" :: "Bo" :: "Cy" :: rest) rand allocFails = .ret 0 w ∧
      Chain w.heap w.pHead scenarioCells ∧
      w.cout = ["\nEnter names for 3 players.\n", "\nName for player 1: ",
        "\nName for player 2: ", "\nName for player 3: ", "\nThe winning number is 7!\n",
        "\nCy has lucky number 5\n", "\nBo has lucky number 7\n", "\n",
        "\nThe winner is Bo with lucky number 7\n"] := by
  have hcells : mainCells ("Ann" :: "Bo" :: "Cy" :: rest) rand allocFails = scenarioCells := by
    have hr : List.range 3 = [0, 1, 2] := rfl
    simp [mainCells, hr, cellAt, entry, headerWorld, initWorld, scenarioCells, h0, h1, h2]
  have hchain := drawnWorld_chain ("Ann" :: "Bo" :: "Cy" :: rest) rand allocFails
  rw [hcells] at hchain
  have hfind := FindWinner_chain 7 _ _ hchain
  have hlive := Chain.mem_heap hchain (1, { name := "Bo", lucky := 7, pNext := some 0 })
    (by simp [scenarioCells])
  have hs1 : headerLine MAX_NAMES = "\nEnter names for 3 players.\n" := by decide
  have hs2 : promptLine 1 = "\nName for player 1: " := by decide
  have hs3 : promptLine 2 = "\nName for player 2: " := by decide
  have hs4 : promptLine 3 = "\nName for player 3: " := by decide
  have hs5 : winningLine 7 = "\nThe winning number is 7!\n" := by decide
  have hs6 : itemLine { name := "Cy", lucky := 5, pNext := some 1 }
      = "\nCy has lucky number 5\n" := by decide
  have hs7 : itemLine { name := "Bo", lucky := 7, pNext := some 0 }
      = "\nBo has lucky number 7\n" := by decide
  have hs8 : winnerLine { name := "Bo", lucky := 7, pNext := some 0 }
      = "\nThe winner is Bo with lucky number 7\n" := by decide
  rw [main_eq _ rand allocFails hok, h3, hfind]
  refine ⟨{ drawnWorld ("Ann" :: "Bo" :: "Cy" :: rest) rand allocFails with
      cout := (drawnWorld ("Ann" :: "Bo" :: "Cy" :: rest) rand allocFails).cout
        ++ (scanned 7 scenarioCells).map (fun c => itemLine c.2) ++ ["\n"]
        ++ [winnerLine { name := "Bo", lucky := 7, pNext := some 0 }] }, ?_, hchain, ?_⟩
  · have hfirst : firstMatch 7 scenarioCells
        = some (1, { name := "Bo", lucky := 7, pNext := some 0 }) := by
      simp [firstMatch, scenarioCells]
    simp only [hfirst, Run.bind, Option.map_some', DisplayResults, hlive]
    rfl
  · simp [scanned, scenarioCells, drawnWorld, builtFrom, pushed, headerWorld, initWorld,
      hs1, hs2, hs3, hs4, hs5, hs6, hs7, hs8, h3]

/-! ## The claims -/

/-- C1: for every sequence of input names (followed by any further tokens), every random
stream and a store in which the allocations succeed, `CreateList` called with the number
of names on the empty list returns and leaves a well-formed list with exactly that many
records, whose names and lucky numbers read from the head are the names entered, paired
with the numbers drawn for them, in reverse order: the record at position `i` from the
head carries the name entered at position `N - 1 - i` and the lucky number drawn for it. -/
theorem CreateList_reverses_input (names rest : List String) (rand : Nat → Int)
    (allocFails : Nat → Bool) (hok : ∀ k, k < names.length → allocFails k = false) :
    ∃ (w' : World) (cells : List (Nat × ListItem)),
      CreateList (names.length : Int) (initWorld (names ++ rest) rand allocFails) = .ret () w' ∧
      Chain w'.heap w'.pHead cells ∧
      cells.length = names.length ∧
      cells.map payload = (names.zip (draws rand 0 names.length)).reverse ∧
      ∀ i, i < names.length →
        (cells.map payload)[i]? =
          some (names.getD (names.length - 1 - i) "", luckyOf (rand (names.length - 1 - i))) := by
  have hrun := CreateList_eq (names.length : Int) (initWorld (names ++ rest) rand allocFails)
    (by simpa [initWorld] using hok)
  rw [Int.toNat_ofNat] at hrun
  have hchain := builtFrom_chain names.length 0
    { initWorld (names ++ rest) rand allocFails with
      cout := (initWorld (names ++ rest) rand allocFails).cout ++ [headerLine names.length] }
    [] rfl
  rw [List.append_nil] at hchain
  have hpay : ∀ k, payload (cellAt
      { initWorld (names ++ rest) rand allocFails with
        cout := (initWorld (names ++ rest) rand allocFails).cout ++ [headerLine names.length] } k)
      = ((names ++ rest).getD k "", luckyOf (rand (0 + k))) := fun k => rfl
  refine ⟨_, _, hrun, hchain, by simp, ?_, ?_⟩
  · rw [List.map_reverse, List.map_map, draws, ← zip_draws rest]
    congr 1
  · intro i hi
    rw [List.map_reverse, List.map_map, List.getElem?_reverse (by simpa using hi)]
    simp only [List.length_map, List.length_range]
    have hlt : names.length - 1 - i < names.length := by omega
    rw [List.getElem?_map, List.getElem?_range hlt]
    rw [Option.map_some', Function.comp_apply]
    have hk := hpay (names.length - 1 - i)
    rw [List.getD_eq_getElem?_getD, List.getElem?_append_left hlt, Nat.zero_add,
      ← List.getD_eq_getElem?_getD] at hk
    exact congrArg some hk

/-- C1 at the names "Ann", "Bo", "Cy" and the stream of the scenario. -/
theorem CreateList_reverses_input_witness :
    (∀ k, k < scenarioNames.length → noAllocFailure k = false) ∧
    ∃ (w' : World) (cells : List (Nat × ListItem)),
      CreateList (scenarioNames.length : Int)
          (initWorld (scenarioNames ++ []) scenarioRand noAllocFailure) = .ret () w' ∧
      Chain w'.heap w'.pHead cells ∧
      cells.length = scenarioNames.length ∧
      cells.map payload
        = (scenarioNames.zip (draws scenarioRand 0 scenarioNames.length)).reverse ∧
      ∀ i, i < scenarioNames.length →
        (cells.map payload)[i]? =
          some (scenarioNames.getD (scenarioNames.length - 1 - i) "",
            luckyOf (scenarioRand (scenarioNames.length - 1 - i))) :=
  ⟨fun _ _ => rfl,
    CreateList_reverses_input scenarioNames [] scenarioRand noAllocFailure (fun _ _ => rfl)⟩

/-- C2: on every well-formed list and for every winning number, `FindWinner` returns,
and its result is the address of the first cell, in head-to-tail order, whose lucky
number is the winning number, as the reference search finds it; the result is `nullptr`
exactly when no record of the list has the winning number. -/
theorem FindWinner_returns_first_match (w : World) (cells : List (Nat × ListItem))
    (h : Chain w.heap w.pHead cells) (lucky : Int) :
    (∃ w', FindWinner lucky w =
        .ret ((cells.find? (fun c => decide (c.2.lucky = lucky))).map Prod.fst) w') ∧
    (∀ w', FindWinner lucky w = .ret none w' ↔
        ((∀ c ∈ cells, c.2.lucky ≠ lucky) ∧
          w' = { w with cout := w.cout ++ cells.map (fun c => itemLine c.2) ++ ["\n"] })) := by
  have hrun := FindWinner_chain lucky w cells h
  refine ⟨⟨_, hrun⟩, ?_⟩
  intro w'
  rw [hrun, Run.ret.injEq, Option.map_eq_none', firstMatch_eq_none]
  constructor
  · rintro ⟨hno, rfl⟩
    exact ⟨hno, by rw [scanned_of_no_match hno]⟩
  · rintro ⟨hno, rfl⟩
    exact ⟨hno, by rw [scanned_of_no_match hno]⟩

/-- C2 at the list of the scenario and the winning number 7. -/
theorem FindWinner_returns_first_match_witness :
    Chain scenarioWorld.heap scenarioWorld.pHead scenarioCells ∧
    (∃ w', FindWinner 7 scenarioWorld =
        .ret ((scenarioCells.find? (fun c => decide (c.2.lucky = 7))).map Prod.fst) w') ∧
    (∀ w', FindWinner 7 scenarioWorld = .ret none w' ↔
        ((∀ c ∈ scenarioCells, c.2.lucky ≠ 7) ∧
          w' = { scenarioWorld with
            cout := scenarioWorld.cout ++ scenarioCells.map (fun c => itemLine c.2) ++ ["\n"] })) :=
  ⟨⟨rfl, rfl, rfl, rfl, rfl, rfl, rfl⟩,
    FindWinner_returns_first_match scenarioWorld scenarioCells
      ⟨rfl, rfl, rfl, rfl, rfl, rfl, rfl⟩ 7⟩

/-- C3: on every well-formed list none of whose records has the winning number,
`FindWinner` returns `nullptr`, `DisplayResults` called with that result returns 2, and
2 is the exit code of the two calls run in sequence, as `main` runs them. -/
theorem no_match_gives_exit_code_2 (w : World) (cells : List (Nat × ListItem))
    (h : Chain w.heap w.pHead cells) (lucky : Int)
    (hno : ∀ c ∈ cells, c.2.lucky ≠ lucky) :
    ∃ w1 w2, FindWinner lucky w = .ret none w1 ∧
      DisplayResults none lucky w1 = .ret 2 w2 ∧
      ((FindWinner lucky w).bind fun pItem w3 => DisplayResults pItem lucky w3).exitCode
        = some 2 := by
  have hrun := FindWinner_chain lucky w cells h
  rw [firstMatch_eq_none.mpr hno] at hrun
  exact ⟨_, _, hrun, rfl, by rw [hrun]; rfl⟩

/-- C3 at the list of the scenario and the winning number 9. -/
theorem no_match_gives_exit_code_2_witness :
    Chain scenarioWorld.heap scenarioWorld.pHead scenarioCells ∧
    (∀ c ∈ scenarioCells, c.2.lucky ≠ 9) ∧
    ∃ w1 w2, FindWinner 9 scenarioWorld = .ret none w1 ∧
      DisplayResults none 9 w1 = .ret 2 w2 ∧
      ((FindWinner 9 scenarioWorld).bind fun pItem w3 => DisplayResults pItem 9 w3).exitCode
        = some 2 :=
  ⟨⟨rfl, rfl, rfl, rfl, rfl, rfl, rfl⟩, by decide,
    no_match_gives_exit_code_2 scenarioWorld scenarioCells
      ⟨rfl, rfl, rfl, rfl, rfl, rfl, rfl⟩ 9 (by decide)⟩

/-- C4: for every input of `CreateList` run on the empty list (any number of records,
any tokens, any random stream, allocations succeeding) and every winning number, if the
record created at position `k` has the winning number and no record created after it
has, then whatever records created before it have it too, `FindWinner` returns the record
created at position `k`: the match inserted last, the one nearest to the head.  That
record has address `k` (the records are allocated in order of creation) and carries the
token entered at position `k`. -/
theorem FindWinner_returns_last_inserted (N : Nat) (cin : List String) (rand : Nat → Int)
    (allocFails : Nat → Bool) (hok : ∀ k, k < N → allocFails k = false)
    (lucky : Int) (k : Nat) (hk : k < N) (hmatch : luckyOf (rand k) = lucky)
    (hlast : ∀ j, k < j → j < N → luckyOf (rand j) ≠ lucky) :
    ∃ w' w'' it, CreateList (N : Int) (initWorld cin rand allocFails) = .ret () w' ∧
      FindWinner lucky w' = .ret (some k) w'' ∧
      w'.heap[k]? = some it ∧ it.name = cin.getD k "" ∧ it.lucky = lucky := by
  have hrun := CreateList_eq (N : Int) (initWorld cin rand allocFails)
    (by simpa [initWorld] using hok)
  rw [Int.toNat_ofNat] at hrun
  have hchain := builtFrom_chain N 0
    { initWorld cin rand allocFails with
      cout := (initWorld cin rand allocFails).cout ++ [headerLine N] }
    [] rfl
  rw [List.append_nil] at hchain
  have hcell : ∀ j, cellAt
      { initWorld cin rand allocFails with
        cout := (initWorld cin rand allocFails).cout ++ [headerLine N] } j
      = (j, { name := cin.getD j "", lucky := luckyOf (rand j),
              pNext := if j = 0 then none else some (j - 1) }) := by
    intro j
    simp [cellAt, entry, initWorld]
  have hfirst := find_reverse_range (fun c : Nat × ListItem => decide (c.2.lucky = lucky))
    (cellAt { initWorld cin rand allocFails with
      cout := (initWorld cin rand allocFails).cout ++ [headerLine N] }) N k hk
    (by rw [hcell]; simpa using hmatch)
    (by intro j h1 h2; rw [hcell]; simpa using hlast j h1 h2)
  have hfind := FindWinner_chain lucky _ _ hchain
  rw [firstMatch, hfirst, hcell] at hfind
  have hmem := Chain.mem_heap hchain _ (List.mem_of_find?_eq_some hfirst)
  rw [hcell] at hmem
  exact ⟨_, _, _, hrun, hfind, hmem, rfl, hmatch⟩

/-- C4 at three records with the lucky numbers 7, 7, 5 and the winning number 7: the
records created at positions 0 and 1 both match, the one created at position 1 is
returned. -/
theorem FindWinner_returns_last_inserted_witness :
    (∀ k, k < 3 → noAllocFailure k = false) ∧ 1 < 3 ∧
    luckyOf (tieRand 0) = 7 ∧ luckyOf (tieRand 1) = 7 ∧
    (∀ j, 1 < j → j < 3 → luckyOf (tieRand j) ≠ 7) ∧
    ∃ w' w'' it, CreateList ((3 : Nat) : Int) (initWorld scenarioNames tieRand noAllocFailure)
        = .ret () w' ∧
      FindWinner 7 w' = .ret (some 1) w'' ∧
      w'.heap[1]? = some it ∧ it.name = scenarioNames.getD 1 "" ∧ it.lucky = 7 := by
  have hlast : ∀ j, 1 < j → j < 3 → luckyOf (tieRand j) ≠ 7 := by
    intro j h1 h2
    have hj : j = 2 := by omega
    subst hj
    decide
  exact ⟨fun _ _ => rfl, by decide, by decide, by decide, hlast,
    FindWinner_returns_last_inserted 3 scenarioNames tieRand noAllocFailure (fun _ _ => rfl)
      7 1 (by decide) (by decide) hlast⟩

/-- C5: on every well-formed list in which exactly one record has the winning number,
wherever it is, `FindWinner` returns the address of that record, `DisplayResults` called
with it returns 0 after printing the name and number of that record, and 0 is the exit
code of the two calls run in sequence. -/
theorem unique_match_gives_exit_code_0 (w : World) (cells : List (Nat × ListItem))
    (h : Chain w.heap w.pHead cells) (lucky : Int) (c : Nat × ListItem)
    (hmem : c ∈ cells) (hc : c.2.lucky = lucky)
    (honly : ∀ d ∈ cells, d.2.lucky = lucky → d = c) :
    ∃ w1 w2, FindWinner lucky w = .ret (some c.1) w1 ∧
      w1.heap[c.1]? = some c.2 ∧
      DisplayResults (some c.1) lucky w1 = .ret 0 w2 ∧
      w2.cout = w1.cout ++ [winnerLine c.2] ∧
      ((FindWinner lucky w).bind fun pItem w3 => DisplayResults pItem lucky w3).exitCode
        = some 0 := by
  have hrun := FindWinner_chain lucky w cells h
  rw [firstMatch_unique hmem hc honly] at hrun
  have hlive : w.heap[c.1]? = some c.2 := Chain.mem_heap h c hmem
  refine ⟨_, { w with cout := w.cout ++ (scanned lucky cells).map (fun c => itemLine c.2)
      ++ ["\n"] ++ [winnerLine c.2] }, hrun, hlive, ?_, rfl, ?_⟩
  · simp only [DisplayResults, hlive]
    rfl
  · rw [hrun]
    simp only [Run.bind, Option.map_some', DisplayResults, hlive]
    rfl

/-- C5 at the list of the scenario and the winning number 3, which only the last record
of the list has. -/
theorem unique_match_gives_exit_code_0_witness :
    Chain scenarioWorld.heap scenarioWorld.pHead scenarioCells ∧
    ((0, { name := "Ann", lucky := 3, pNext := none }) : Nat × ListItem) ∈ scenarioCells ∧
    (∀ d ∈ scenarioCells, d.2.lucky = 3 → d = (0, { name := "Ann", lucky := 3, pNext := none })) ∧
    ∃ w1 w2, FindWinner 3 scenarioWorld = .ret (some 0) w1 ∧
      w1.heap[0]? = some { name := "Ann", lucky := 3, pNext := none } ∧
      DisplayResults (some 0) 3 w1 = .ret 0 w2 ∧
      w2.cout = w1.cout ++ [winnerLine { name := "Ann", lucky := 3, pNext := none }] ∧
      ((FindWinner 3 scenarioWorld).bind fun pItem w3 => DisplayResults pItem 3 w3).exitCode
        = some 0 :=
  ⟨⟨rfl, rfl, rfl, rfl, rfl, rfl, rfl⟩, by decide, by decide,
    unique_match_gives_exit_code_0 scenarioWorld scenarioCells
      ⟨rfl, rfl, rfl, rfl, rfl, rfl, rfl⟩ 3 (0, { name := "Ann", lucky := 3, pNext := none })
      (by decide) rfl (by decide)⟩

/-- C6: when the value `rand()` returns is not negative, as is every value from 0 to
`RAND_MAX` whatever `RAND_MAX` is, the lucky number `FillItem` stores in a live record and the winning
number `DisplayWinningNumber` returns are at least 1 and at most `MAX_LUCKY` = 10, hence
neither 0 nor `MAX_LUCKY + 1`. -/
theorem lucky_numbers_in_range (w : World) (h0 : 0 ≤ w.rand w.randPos) :
    (∀ pItem numItem, pItem < w.heap.length →
      ∃ w' it, FillItem pItem numItem w = .ret () w' ∧ w'.heap[pItem]? = some it ∧
        it.lucky = cRem (w.rand w.randPos) MAX_LUCKY + 1 ∧
        1 ≤ it.lucky ∧ it.lucky ≤ MAX_LUCKY ∧ it.lucky ≠ 0 ∧ it.lucky ≠ MAX_LUCKY + 1) ∧
    (∃ v w', DisplayWinningNumber w = .ret v w' ∧
        v = cRem (w.rand w.randPos) MAX_LUCKY + 1 ∧
        1 ≤ v ∧ v ≤ MAX_LUCKY ∧ v ≠ 0 ∧ v ≠ MAX_LUCKY + 1) := by
  have hb := luckyOf_bounds (w.rand w.randPos) h0
  have key : ∀ v : Int, v = luckyOf (w.rand w.randPos) →
      1 ≤ v ∧ v ≤ MAX_LUCKY ∧ v ≠ 0 ∧ v ≠ MAX_LUCKY + 1 := by
    intro v hv
    rw [← hv] at hb
    simp only [MAX_LUCKY]
    omega
  constructor
  · intro pItem numItem hlive
    obtain ⟨w', it, hrun, hget, hl⟩ := FillItem_live pItem numItem w hlive
    exact ⟨w', it, hrun, hget, hl, key _ hl⟩
  · exact ⟨_, _, DisplayWinningNumber_eq w, rfl, key _ rfl⟩

/-- C6 at the world of the scenario, where the next value of `rand()` is 6. -/
theorem lucky_numbers_in_range_witness :
    0 ≤ scenarioWorld.rand scenarioWorld.randPos ∧
    (∀ pItem numItem, pItem < scenarioWorld.heap.length →
      ∃ w' it, FillItem pItem numItem scenarioWorld = .ret () w' ∧ w'.heap[pItem]? = some it ∧
        it.lucky = cRem (scenarioWorld.rand scenarioWorld.randPos) MAX_LUCKY + 1 ∧
        1 ≤ it.lucky ∧ it.lucky ≤ MAX_LUCKY ∧ it.lucky ≠ 0 ∧ it.lucky ≠ MAX_LUCKY + 1) ∧
    (∃ v w', DisplayWinningNumber scenarioWorld = .ret v w' ∧
        v = cRem (scenarioWorld.rand scenarioWorld.randPos) MAX_LUCKY + 1 ∧
        1 ≤ v ∧ v ≤ MAX_LUCKY ∧ v ≠ 0 ∧ v ≠ MAX_LUCKY + 1) :=
  ⟨by decide, lucky_numbers_in_range scenarioWorld (by decide)⟩

/-- C7, amended: for the input names "Ann", "Bo", "Cy", lucky numbers 3, 7, 5 drawn in
that order and the winning number 7, with the allocations succeeding, `main` returns 0;
the list read from the head is Cy:5, Bo:7, Ann:3; the scan displays the records up to
the winner only, Cy and then Bo, and no line for Ann; the winner reported is Bo with lucky
number 7. -/
theorem scenario_winner_is_Bo (rest : List String) (rand : Nat → Int)
    (allocFails : Nat → Bool) (hok : ∀ k, k < 3 → allocFails k = false)
    (h0 : luckyOf (rand 0) = 3) (h1 : luckyOf (rand 1) = 7) (h2 : luckyOf (rand 2) = 5)
    (h3 : luckyOf (rand 3) = 7) :
    ∃ w, main ("Ann" :: "Bo" :: "Cy" :: rest) rand allocFails = .ret 0 w ∧
      Chain w.heap w.pHead scenarioCells ∧
      scenarioCells.map payload = [("Cy", 5), ("Bo", 7), ("Ann", 3)] ∧
      w.cout = ["\nEnter names for 3 players.\n", "\nName for player 1: ",
        "\nName for player 2: ", "\nName for player 3: ", "\nThe winning number is 7!\n",
        "\nCy has lucky number 5\n", "\nBo has lucky number 7\n", "\n",
        "\nThe winner is Bo with lucky number 7\n"] := by
  obtain ⟨w, hrun, hchain, hcout⟩ := scenario_run rest rand allocFails hok h0 h1 h2 h3
  exact ⟨w, hrun, hchain, rfl, hcout⟩

/-- C7, amended, at the stream of the scenario and no further input. -/
theorem scenario_winner_is_Bo_witness :
    (∀ k, k < 3 → noAllocFailure k = false) ∧
    luckyOf (scenarioRand 0) = 3 ∧ luckyOf (scenarioRand 1) = 7 ∧
    luckyOf (scenarioRand 2) = 5 ∧ luckyOf (scenarioRand 3) = 7 ∧
    ∃ w, main ("Ann" :: "Bo" :: "Cy" :: []) scenarioRand noAllocFailure = .ret 0 w ∧
      Chain w.heap w.pHead scenarioCells ∧
      scenarioCells.map payload = [("Cy", 5), ("Bo", 7), ("Ann", 3)] ∧
      w.cout = ["\nEnter names for 3 players.\n", "\nName for player 1: ",
        "\nName for player 2: ", "\nName for player 3: ", "\nThe winning number is 7!\n",
        "\nCy has lucky number 5\n", "\nBo has lucky number 7\n", "\n",
        "\nThe winner is Bo with lucky number 7\n"] :=
  ⟨fun _ _ => rfl, by decide, by decide, by decide, by decide,
    scenario_winner_is_Bo [] scenarioRand noAllocFailure (fun _ _ => rfl)
      (by decide) (by decide) (by decide) (by decide)⟩

/-- C7 as stated fails: in the run of the scenario the line of Ann, the third record of
the list, is never displayed. -/
theorem scenario_scan_omits_Ann :
    ∃ w, main scenarioNames scenarioRand noAllocFailure = .ret 0 w ∧
      Chain w.heap w.pHead scenarioCells ∧
      "\nAnn has lucky number 3\n" ∉ w.cout := by
  obtain ⟨w, hrun, hchain, hcout⟩ := scenario_run [] scenarioRand noAllocFailure
    (fun _ _ => rfl) (by decide) (by decide) (by decide) (by decide)
  refine ⟨w, hrun, hchain, ?_⟩
  rw [hcout]
  decide

/-- C8: in every world whose list, read from the head, is Cy:5, Bo:7, Ann:3, the scan
for the winning number 9 displays the three records in that order, then a line feed, and
returns `nullptr`; `DisplayResults` then reports that there is no winner for lucky number
9 and returns 2, which is the exit code of the two calls in sequence. -/
theorem scenario_no_winner (w : World) (cells : List (Nat × ListItem))
    (h : Chain w.heap w.pHead cells)
    (hpay : cells.map payload = [("Cy", 5), ("Bo", 7), ("Ann", 3)]) :
    ∃ w1 w2, FindWinner 9 w = .ret none w1 ∧
      w1.cout = w.cout ++ ["\nCy has lucky number 5\n", "\nBo has lucky number 7\n",
        "\nAnn has lucky number 3\n", "\n"] ∧
      DisplayResults none 9 w1 = .ret 2 w2 ∧
      w2.cout = w1.cout ++ ["\nSorry, there's no winner for lucky number 9\n"] ∧
      ((FindWinner 9 w).bind fun pItem w3 => DisplayResults pItem 9 w3).exitCode = some 2 := by
  have hlen : cells.length = 3 := by simpa using congrArg List.length hpay
  obtain ⟨c1, c2, c3, rfl⟩ := List.length_eq_three.mp hlen
  simp only [List.map_cons, List.map_nil, payload, List.cons.injEq, Prod.mk.injEq,
    and_true] at hpay
  obtain ⟨⟨n1, l1⟩, ⟨n2, l2⟩, n3, l3⟩ := hpay
  have hno : ∀ c ∈ [c1, c2, c3], c.2.lucky ≠ 9 := by
    intro c hc
    simp only [List.mem_cons, List.mem_singleton, List.not_mem_nil, or_false] at hc
    rcases hc with rfl | rfl | rfl
    · rw [l1]; decide
    · rw [l2]; decide
    · rw [l3]; decide
  have hrun := FindWinner_chain 9 w _ h
  rw [firstMatch_eq_none.mpr hno, scanned_of_no_match hno] at hrun
  have hs1 : itemLine c1.2 = "\nCy has lucky number 5\n" := by
    rw [itemLine, n1, l1]; decide
  have hs2 : itemLine c2.2 = "\nBo has lucky number 7\n" := by
    rw [itemLine, n2, l2]; decide
  have hs3 : itemLine c3.2 = "\nAnn has lucky number 3\n" := by
    rw [itemLine, n3, l3]; decide
  have hs4 : noWinnerLine 9 = "\nSorry, there's no winner for lucky number 9\n" := by
    decide
  refine ⟨_, { w with cout := w.cout ++ [c1, c2, c3].map (fun c => itemLine c.2)
    ++ ["\n"] ++ [noWinnerLine 9] }, hrun, ?_, rfl, ?_, ?_⟩
  · simp [hs1, hs2, hs3]
  · simp [hs4]
  · rw [hrun]
    rfl

/-- C8 at the world of the scenario. -/
theorem scenario_no_winner_witness :
    Chain scenarioWorld.heap scenarioWorld.pHead scenarioCells ∧
    scenarioCells.map payload = [("Cy", 5), ("Bo", 7), ("Ann", 3)] ∧
    ∃ w1 w2, FindWinner 9 scenarioWorld = .ret none w1 ∧
      w1.cout = scenarioWorld.cout ++ ["\nCy has lucky number 5\n",
        "\nBo has lucky number 7\n", "\nAnn has lucky number 3\n", "\n"] ∧
      DisplayResults none 9 w1 = .ret 2 w2 ∧
      w2.cout = w1.cout ++ ["\nSorry, there's no winner for lucky number 9\n"] ∧
      ((FindWinner 9 scenarioWorld).bind fun pItem w3 => DisplayResults pItem 9 w3).exitCode
        = some 2 :=
  ⟨⟨rfl, rfl, rfl, rfl, rfl, rfl, rfl⟩, rfl,
    scenario_no_winner scenarioWorld scenarioCells ⟨rfl, rfl, rfl, rfl, rfl, rfl, rfl⟩ rfl⟩

/-- C9: for every winning number, `DisplayResults` called with a live record prints
the name and the lucky number of that record and returns 0; called with `nullptr` it
prints the winning number in the no-winner message and returns 2; the codes 0, 1 (failed
allocation) and 2 are pairwise distinct; and `main` returns the value `DisplayResults`
returned: whenever `main` returns, and it does so when no allocation fails, its value
and final world are those of a call of `DisplayResults`. -/
theorem DisplayResults_exit_codes (w : World) (lucky : Int) :
    (∀ a it, w.heap[a]? = some it →
      DisplayResults (some a) lucky w = .ret 0
        { w with cout := w.cout ++
          ["\nThe winner is " ++ it.name ++ " with lucky number " ++ toString it.lucky ++ "\n"] }) ∧
    DisplayResults none lucky w = .ret 2
      { w with cout := w.cout ++
        ["\nSorry, there's no winner for lucky number " ++ toString lucky ++ "\n"] } ∧
    (ERR_ALL_OK = 0 ∧ ERR_BAD_ALLOC = 1 ∧ ERR_NO_WINNER = 2) ∧
    (ERR_ALL_OK ≠ ERR_NO_WINNER ∧ ERR_ALL_OK ≠ ERR_BAD_ALLOC ∧ ERR_NO_WINNER ≠ ERR_BAD_ALLOC) ∧
    (∀ cin rand allocFails c w', main cin rand allocFails = .ret c w' →
      ∃ pItem drawn w3, DisplayResults pItem drawn w3 = .ret c w') ∧
    (∀ cin rand allocFails, (∀ k, k < 3 → allocFails k = false) →
      ∃ pItem drawn w3 c w', DisplayResults pItem drawn w3 = .ret c w' ∧
        main cin rand allocFails = .ret c w') := by
  refine ⟨?_, rfl, ⟨rfl, rfl, rfl⟩, ⟨by decide, by decide, by decide⟩, ?_, ?_⟩
  · intro a it hlive
    simp only [DisplayResults, hlive]
    rfl
  · intro cin rand allocFails c w' hmain
    rw [main] at hmain
    cases h1 : CreateList MAX_NAMES (initWorld cin rand allocFails) with
    | stuck => rw [h1] at hmain; exact Run.noConfusion hmain
    | exited code w1 => rw [h1] at hmain; exact Run.noConfusion hmain
    | ret u w1 =>
      rw [h1] at hmain
      simp only [Run.bind, DisplayWinningNumber_eq] at hmain
      cases h2 : FindWinner (luckyOf (w1.rand w1.randPos))
          { w1 with randPos := w1.randPos + 1,
                    cout := w1.cout ++ [winningLine (luckyOf (w1.rand w1.randPos))] } with
      | stuck => rw [h2] at hmain; exact Run.noConfusion hmain
      | exited code w3 => rw [h2] at hmain; exact Run.noConfusion hmain
      | ret pItem w3 =>
        rw [h2] at hmain
        exact ⟨pItem, _, w3, hmain⟩
  · intro cin rand allocFails hok
    have hmain := main_eq_DisplayResults cin rand allocFails hok
    rcases main_returns cin rand allocFails hok with ⟨_, hret⟩ | ⟨c, _, hret⟩
    · exact ⟨_, _, _, _, _, hmain ▸ hret, hret⟩
    · exact ⟨_, _, _, _, _, hmain ▸ hret, hret⟩

/-- C9 at the world of the scenario: called with the address of Bo, `DisplayResults`
reports Bo and returns 0. -/
theorem DisplayResults_exit_codes_witness :
    scenarioWorld.heap[1]? = some { name := "Bo", lucky := 7, pNext := some 0 } ∧
    DisplayResults (some 1) 7 scenarioWorld = .ret 0
      { scenarioWorld with cout := scenarioWorld.cout ++
        ["\nThe winner is " ++ "Bo" ++ " with lucky number " ++ toString (7 : Int) ++ "\n"] } :=
  ⟨rfl, (DisplayResults_exit_codes scenarioWorld 7).1 1
    { name := "Bo", lucky := 7, pNext := some 0 } rfl⟩

/-- C10, amended: the lucky number is not uniform but nearly so.  For `RAND_MAX` = 32767
the numbers 1 to 8 each come from 3277 values of `rand()` and the numbers 9 and 10 each
from 3276; for `RAND_MAX` = 2147483647 the numbers 1 to 8 each come from 214748365 values
and the numbers 9 and 10 each from 214748364. -/
theorem lucky_number_counts (k : Int) (h1 : 1 ≤ k) (h10 : k ≤ 10) :
    luckyCount 32767 k = (if k ≤ 8 then 3277 else 3276) ∧
    luckyCount 2147483647 k = (if k ≤ 8 then 214748365 else 214748364) := by
  rw [luckyCount_eq 32767 k h1 h10, luckyCount_eq 2147483647 k h1 h10]
  have e1 : (32767 + 1) / 10 = 3276 := by norm_num
  have e2 : (32767 + 1) % 10 = 8 := by norm_num
  have e3 : (2147483647 + 1) / 10 = 214748364 := by norm_num
  have e4 : (2147483647 + 1) % 10 = 8 := by norm_num
  simp only [e1, e2, e3, e4]
  by_cases hk : k ≤ 8
  · have hlt : (k - 1).toNat < 8 := by omega
    rw [if_pos hk, if_pos hk, if_pos hlt]
    exact ⟨rfl, rfl⟩
  · have hlt : ¬ (k - 1).toNat < 8 := by omega
    rw [if_neg hk, if_neg hk, if_neg hlt]
    exact ⟨rfl, rfl⟩

/-- C10, amended, at the lucky number 9. -/
theorem lucky_number_counts_witness :
    (1 : Int) ≤ 9 ∧ (9 : Int) ≤ 10 ∧
    luckyCount 32767 9 = (if (9 : Int) ≤ 8 then 3277 else 3276) ∧
    luckyCount 2147483647 9 = (if (9 : Int) ≤ 8 then 214748365 else 214748364) :=
  ⟨by decide, by decide, lucky_number_counts 9 (by decide) (by decide)⟩

/-- C10 as stated fails: for both values of `RAND_MAX` the lucky number 1 comes from one
more value of `rand()` than the lucky number 10. -/
theorem lucky_number_not_uniform :
    luckyCount 32767 1 ≠ luckyCount 32767 10 ∧
    luckyCount 2147483647 1 ≠ luckyCount 2147483647 10 := by
  rw [luckyCount_eq 32767 1 (by decide) (by decide),
    luckyCount_eq 32767 10 (by decide) (by decide),
    luckyCount_eq 2147483647 1 (by decide) (by decide),
    luckyCount_eq 2147483647 10 (by decide) (by decide)]
  norm_num

/-! ## What the loop of `CreateList` leaves behind -/

theorem builtFrom_allocFails :
    ∀ (n : Nat) (i : Int) (w : World), (builtFrom n i w).allocFails = w.allocFails := by
  intro n
  induction n with
  | zero => intro i w; rfl
  | succ n ih => intro i w; rw [builtFrom, ih]; rfl

theorem builtFrom_cin :
    ∀ (n : Nat) (i : Int) (w : World), (builtFrom n i w).cin = w.cin.drop n := by
  intro n
  induction n with
  | zero => intro i w; rfl
  | succ n ih =>
    intro i w
    rw [builtFrom, ih]
    cases hcin : w.cin <;> simp [pushed, hcin]

theorem builtFrom_cout :
    ∀ (n : Nat) (i : Int) (w : World),
      (builtFrom n i w).cout
        = w.cout ++ (List.range n).map (fun k : Nat => promptLine (i + (k : Int) + 1)) := by
  intro n
  induction n with
  | zero => intro i w; simp [builtFrom]
  | succ n ih =>
    intro i w
    rw [builtFrom, ih, List.range_succ_eq_map]
    simp only [pushed, List.map_cons, List.map_map, List.append_assoc, List.singleton_append]
    congr 2
    · simp
    · apply List.map_congr_left
      intro k _
      simp only [Function.comp_apply, Nat.succ_eq_add_one, Nat.cast_add, Nat.cast_one]
      congr 1
      omega

theorem builtFrom_heap :
    ∀ (n : Nat) (i : Int) (w : World),
      (builtFrom n i w).heap = w.heap ++ (List.range n).map (fun k => (cellAt w k).2) := by
  intro n
  induction n with
  | zero => intro i w; simp [builtFrom]
  | succ n ih =>
    intro i w
    rw [builtFrom, ih, List.range_succ_eq_map]
    simp only [List.map_cons, List.map_map, cellAt_zero]
    have hmap : (List.range n).map (fun k => (cellAt (pushed i w) k).2)
        = (List.range n).map ((fun k => (cellAt w k).2) ∘ Nat.succ) :=
      List.map_congr_left (fun k _ => by rw [cellAt_pushed]; rfl)
    rw [hmap]
    simp [pushed]

theorem builtFrom_heap_length (n : Nat) (i : Int) (w : World) :
    (builtFrom n i w).heap.length = w.heap.length + n := by
  simp [builtFrom_heap]

theorem builtFrom_old_records (n : Nat) (i : Int) (w : World) (a : Nat)
    (ha : a < w.heap.length) : (builtFrom n i w).heap[a]? = w.heap[a]? := by
  rw [builtFrom_heap, List.getElem?_append_left ha]

theorem drawnWorld_cout (cin : List String) (rand : Nat → Int) (allocFails : Nat → Bool) :
    (drawnWorld cin rand allocFails).cout
      = [headerLine MAX_NAMES, promptLine 1, promptLine 2, promptLine 3,
          winningLine (luckyOf (rand 3))] := by
  simp [drawnWorld, builtFrom, pushed, headerWorld]

/-- The output of a complete run of `main`. -/
theorem main_output (cin : List String) (rand : Nat → Int) (allocFails : Nat → Bool)
    (hok : ∀ k, k < 3 → allocFails k = false) :
    ∃ c w, main cin rand allocFails = .ret c w ∧
      Chain w.heap w.pHead (mainCells cin rand allocFails) ∧
      (∃ final, w.cout =
        [headerLine MAX_NAMES] ++ [promptLine 1, promptLine 2, promptLine 3]
          ++ [winningLine (luckyOf (rand 3))]
          ++ (scanned (luckyOf (rand 3)) (mainCells cin rand allocFails)).map
              (fun cell => itemLine cell.2)
          ++ ["\n"] ++ [final] ∧
        ((c = 2 ∧ firstMatch (luckyOf (rand 3)) (mainCells cin rand allocFails) = none ∧
            final = noWinnerLine (luckyOf (rand 3))) ∨
         (c = 0 ∧ ∃ cell, firstMatch (luckyOf (rand 3)) (mainCells cin rand allocFails)
              = some cell ∧ final = winnerLine cell.2))) := by
  have hchain := drawnWorld_chain cin rand allocFails
  have hcout := drawnWorld_cout cin rand allocFails
  rcases main_returns cin rand allocFails hok with ⟨hnone, hret⟩ | ⟨cell, hsome, hret⟩
  · refine ⟨_, _, hret, hchain, noWinnerLine (luckyOf (rand 3)), ?_, Or.inl ⟨rfl, hnone, rfl⟩⟩
    simp [scannedWorld, hcout]
  · refine ⟨_, _, hret, hchain, winnerLine cell.2, ?_, Or.inr ⟨rfl, cell, hsome, rfl⟩⟩
    simp [scannedWorld, hcout]

/-- C11, amended: in every complete run of `main` (no allocation fails, any input, any
random stream) the output is, in this order: the header announcing the number of players,
the three prompts, the announcement of the winning number, one line for each record
displayed by the scan, a line feed, and the final line, which reports the winner when
the exit code is 0 and that there is no winner when it is 2. -/
theorem main_output_order (cin : List String) (rand : Nat → Int) (allocFails : Nat → Bool)
    (hok : ∀ k, k < 3 → allocFails k = false) :
    ∃ c w, main cin rand allocFails = .ret c w ∧
      Chain w.heap w.pHead (mainCells cin rand allocFails) ∧
      (∃ final, w.cout =
        [headerLine MAX_NAMES] ++ [promptLine 1, promptLine 2, promptLine 3]
          ++ [winningLine (luckyOf (rand 3))]
          ++ (scanned (luckyOf (rand 3)) (mainCells cin rand allocFails)).map
              (fun cell => itemLine cell.2)
          ++ ["\n"] ++ [final] ∧
        ((c = 2 ∧ firstMatch (luckyOf (rand 3)) (mainCells cin rand allocFails) = none ∧
            final = noWinnerLine (luckyOf (rand 3))) ∨
         (c = 0 ∧ ∃ cell, firstMatch (luckyOf (rand 3)) (mainCells cin rand allocFails)
              = some cell ∧ final = winnerLine cell.2))) :=
  main_output cin rand allocFails hok

/-- C11, amended, at the run of the scenario. -/
theorem main_output_order_witness :
    (∀ k, k < 3 → noAllocFailure k = false) ∧
    ∃ c w, main scenarioNames scenarioRand noAllocFailure = .ret c w ∧
      Chain w.heap w.pHead (mainCells scenarioNames scenarioRand noAllocFailure) ∧
      (∃ final, w.cout =
        [headerLine MAX_NAMES] ++ [promptLine 1, promptLine 2, promptLine 3]
          ++ [winningLine (luckyOf (scenarioRand 3))]
          ++ (scanned (luckyOf (scenarioRand 3))
                (mainCells scenarioNames scenarioRand noAllocFailure)).map
              (fun cell => itemLine cell.2)
          ++ ["\n"] ++ [final] ∧
        ((c = 2 ∧ firstMatch (luckyOf (scenarioRand 3))
              (mainCells scenarioNames scenarioRand noAllocFailure) = none ∧
            final = noWinnerLine (luckyOf (scenarioRand 3))) ∨
         (c = 0 ∧ ∃ cell, firstMatch (luckyOf (scenarioRand 3))
              (mainCells scenarioNames scenarioRand noAllocFailure)
              = some cell ∧ final = winnerLine cell.2))) :=
  ⟨fun _ _ => rfl, main_output_order scenarioNames scenarioRand noAllocFailure (fun _ _ => rfl)⟩

/-- C11 as stated fails: in the run of the scenario the announcement of the winning
number is the fifth text of the output and the lines of the scan come after it, so the
output is not the header and the prompts, then lines of the scan, then the announcement
and the final line. -/
theorem scenario_announcement_precedes_scan :
    ∃ w, main scenarioNames scenarioRand noAllocFailure = .ret 0 w ∧
      w.cout[4]? = some "\nThe winning number is 7!\n" ∧
      w.cout[5]? = some "\nCy has lucky number 5\n" ∧
      w.cout[6]? = some "\nBo has lucky number 7\n" ∧
      ¬ ∃ (scan : List String) (final : String),
        w.cout = ["\nEnter names for 3 players.\n", "\nName for player 1: ",
            "\nName for player 2: ", "\nName for player 3: "]
          ++ scan ++ ["\nThe winning number is 7!\n", final] := by
  obtain ⟨w, hrun, _, hcout⟩ := scenario_run [] scenarioRand noAllocFailure
    (fun _ _ => rfl) (by decide) (by decide) (by decide) (by decide)
  refine ⟨w, hrun, by rw [hcout]; rfl, by rw [hcout]; rfl, by rw [hcout]; rfl, ?_⟩
  rintro ⟨scan, final, h⟩
  rw [hcout] at h
  have hrev := congrArg (fun l => l.reverse[1]?) h
  simp at hrev

/-! ## Allocation failure -/

theorem CreateList.loop_alloc_fails (max : Int) :
    ∀ (k n : Nat) (i : Int) (w : World), (max - i).toNat = n → k < n →
      (∀ j, j < k → w.allocFails (w.heap.length + j) = false) →
      w.allocFails (w.heap.length + k) = true →
      CreateList.loop max n i w =
        .exited ERR_BAD_ALLOC
          { builtFrom k i w with cout := (builtFrom k i w).cout ++ [allocFailedLine] } := by
  intro k
  induction k with
  | zero =>
    intro n i w hn hk _ hfail
    cases n with
    | zero => exact absurd hk (Nat.lt_irrefl 0)
    | succ m =>
      have hlt : i < max := by omega
      have hf : w.allocFails w.heap.length = true := by simpa using hfail
      rw [CreateList.loop]
      simp only [hlt, if_true, PrepareItem, hf, Run.bind]
      rfl
  | succ k ih =>
    intro n i w hn hk hbefore hfail
    cases n with
    | zero => exact absurd hk (Nat.not_lt_zero _)
    | succ m =>
      have hlt : i < max := by omega
      have hn2 : (max - (i + 1)).toNat = m := by omega
      have h0 : w.allocFails w.heap.length = false := by
        simpa using hbefore 0 (Nat.succ_pos k)
      have hbefore2 : ∀ j, j < k →
          (pushed i w).allocFails ((pushed i w).heap.length + j) = false := by
        intro j hj
        rw [pushed_allocFails, pushed_heap_length]
        have := hbefore (j + 1) (Nat.succ_lt_succ hj)
        rwa [show w.heap.length + 1 + j = w.heap.length + (j + 1) by omega]
      have hfail2 : (pushed i w).allocFails ((pushed i w).heap.length + k) = true := by
        rw [pushed_allocFails, pushed_heap_length]
        rwa [show w.heap.length + 1 + k = w.heap.length + (k + 1) by omega]
      rw [CreateList.loop]
      simp only [hlt, if_true]
      rw [iteration_eq i w h0,
        ih m (i + 1) (pushed i w) hn2 (Nat.lt_of_succ_lt_succ hk) hbefore2 hfail2]
      rfl

/-- When the allocation made with `k` records created fails, `main` ends by `exit`
in the world the first `k` iterations left, after printing the diagnostic. -/
theorem main_alloc_fails (cin : List String) (rand : Nat → Int) (allocFails : Nat → Bool)
    (k : Nat) (hk : k < 3) (hbefore : ∀ j, j < k → allocFails j = false)
    (hfail : allocFails k = true) :
    main cin rand allocFails =
      .exited ERR_BAD_ALLOC
        { builtFrom k 0 (headerWorld cin rand allocFails) with
          cout := (builtFrom k 0 (headerWorld cin rand allocFails)).cout
            ++ [allocFailedLine] } := by
  have hloop := CreateList.loop_alloc_fails MAX_NAMES k 3 0 (headerWorld cin rand allocFails)
    (by decide) hk (by simpa [headerWorld, initWorld] using hbefore)
    (by simpa [headerWorld, initWorld] using hfail)
  have hcreate : CreateList MAX_NAMES (initWorld cin rand allocFails)
      = CreateList.loop MAX_NAMES 3 0 (headerWorld cin rand allocFails) := rfl
  rw [main, hcreate, hloop]
  rfl

/-- C12: if in a run of `main` the allocations made with fewer than `k` records created
succeed and the one made with `k` records created fails (`k` < 3), the run ends by
`exit` with code 1; its output is the header, the prompts for the `k` records created
and the diagnostic, so there is no prompt for the record that could not be allocated, no
announcement and no line of a scan; exactly `k` values of the random stream and at most
`k` tokens are consumed and the store holds `k` records.  And a run of `main` in which
the three allocations succeed returns 0 or 2, never 1. -/
theorem allocation_failure_exits_1 (cin : List String) (rand : Nat → Int)
    (allocFails : Nat → Bool) (k : Nat) (hk : k < 3)
    (hbefore : ∀ j, j < k → allocFails j = false) (hfail : allocFails k = true)
    (allocOk : Nat → Bool) (hall : ∀ j, j < 3 → allocOk j = false) :
    (∃ w, main cin rand allocFails = .exited 1 w ∧
      (main cin rand allocFails).exitCode = some 1 ∧
      w.cout = [headerLine MAX_NAMES]
        ++ (List.range k).map (fun j : Nat => promptLine ((j : Int) + 1))
        ++ [allocFailedLine] ∧
      w.randPos = k ∧ w.cin = cin.drop k ∧ w.heap.length = k) ∧
    (∃ c w, main cin rand allocOk = .ret c w ∧ (c = 0 ∨ c = 2) ∧
      (main cin rand allocOk).exitCode ≠ some 1) := by
  constructor
  · have hrun := main_alloc_fails cin rand allocFails k hk hbefore hfail
    refine ⟨_, hrun, by rw [hrun]; rfl, ?_, ?_, ?_, ?_⟩
    · simp [builtFrom_cout, headerWorld]
    · simp [builtFrom_randPos, headerWorld, initWorld]
    · simp [builtFrom_cin, headerWorld, initWorld]
    · simp [builtFrom_heap_length, headerWorld, initWorld]
  · rcases main_returns cin rand allocOk hall with ⟨_, hret⟩ | ⟨cell, _, hret⟩
    · exact ⟨2, _, hret, Or.inr rfl, by rw [hret]; simp [Run.exitCode]⟩
    · exact ⟨0, _, hret, Or.inl rfl, by rw [hret]; simp [Run.exitCode]⟩

/-- C12 at a store in which the second allocation fails, and at one in which none does. -/
theorem allocation_failure_exits_1_witness :
    1 < 3 ∧ (∀ j, j < 1 → secondAllocFails j = false) ∧ secondAllocFails 1 = true ∧
    (∀ j, j < 3 → noAllocFailure j = false) ∧
    (∃ w, main scenarioNames scenarioRand secondAllocFails = .exited 1 w ∧
      (main scenarioNames scenarioRand secondAllocFails).exitCode = some 1 ∧
      w.cout = [headerLine MAX_NAMES]
        ++ (List.range 1).map (fun j : Nat => promptLine ((j : Int) + 1))
        ++ [allocFailedLine] ∧
      w.randPos = 1 ∧ w.cin = scenarioNames.drop 1 ∧ w.heap.length = 1) ∧
    (∃ c w, main scenarioNames scenarioRand noAllocFailure = .ret c w ∧ (c = 0 ∨ c = 2) ∧
      (main scenarioNames scenarioRand noAllocFailure).exitCode ≠ some 1) := by
  have hbefore : ∀ j, j < 1 → secondAllocFails j = false := by
    intro j hj
    have h0 : j = 0 := by omega
    subst h0
    rfl
  exact ⟨by decide, hbefore, rfl, fun _ _ => rfl,
    allocation_failure_exits_1 scenarioNames scenarioRand secondAllocFails 1 (by decide)
      hbefore rfl noAllocFailure (fun _ _ => rfl)⟩

/-! ## What the scan displays -/

theorem scanned_eq_takeWhile (lucky : Int) :
    ∀ (cells : List (Nat × ListItem)),
      scanned lucky cells
        = cells.takeWhile (fun c => decide (c.2.lucky ≠ lucky))
          ++ (cells.find? (fun c => decide (c.2.lucky = lucky))).toList := by
  intro cells
  induction cells with
  | nil => rfl
  | cons c rest ih =>
    by_cases hc : c.2.lucky = lucky
    · simp [scanned, hc, List.takeWhile]
    · simp [scanned, hc, List.takeWhile, ih]

theorem scanned_initial (lucky : Int) :
    ∀ (cells : List (Nat × ListItem)), scanned lucky cells <+: cells := by
  intro cells
  induction cells with
  | nil => exact List.prefix_refl []
  | cons c rest ih =>
    by_cases hc : c.2.lucky = lucky
    · simp [scanned, hc]
    · simpa [scanned, hc] using ih

theorem scanned_split {lucky : Int} {pre post : List (Nat × ListItem)} {c : Nat × ListItem}
    (hpre : ∀ d ∈ pre, d.2.lucky ≠ lucky) (hc : c.2.lucky = lucky) :
    scanned lucky (pre ++ c :: post) = pre ++ [c] := by
  induction pre with
  | nil => simp [scanned, hc]
  | cons d rest ih =>
    have hd : d.2.lucky ≠ lucky := hpre d (List.mem_cons_self d rest)
    simp [scanned, hd, ih (fun e he => hpre e (List.mem_cons_of_mem d he))]

/-- C13: on every well-formed list and for every winning number `FindWinner` returns
and has appended to the output one line per record scanned, in head-to-tail order, and
then a line feed.  The records scanned are the records before the first match followed
by the first match, if there is one: the whole list when nothing matches, the list up
to and including the first match otherwise, hence no record behind it; they are a prefix
of the list, no record occurs twice among them, and the line of a record shows the name
and the lucky number of that record. -/
theorem FindWinner_displays_scanned_records (w : World) (cells : List (Nat × ListItem))
    (h : Chain w.heap w.pHead cells) (lucky : Int) :
    ∃ r w', FindWinner lucky w = .ret r w' ∧
      w'.cout = w.cout
        ++ (scanned lucky cells).map
            (fun c => "\n" ++ c.2.name ++ " has lucky number " ++ toString c.2.lucky ++ "\n")
        ++ ["\n"] ∧
      scanned lucky cells
        = cells.takeWhile (fun c => decide (c.2.lucky ≠ lucky))
          ++ (cells.find? (fun c => decide (c.2.lucky = lucky))).toList ∧
      scanned lucky cells <+: cells ∧
      ((scanned lucky cells).map Prod.fst).Nodup ∧
      ((∀ c ∈ cells, c.2.lucky ≠ lucky) → scanned lucky cells = cells) ∧
      (∀ pre c post, cells = pre ++ c :: post → (∀ d ∈ pre, d.2.lucky ≠ lucky) →
        c.2.lucky = lucky → scanned lucky cells = pre ++ [c]) := by
  refine ⟨_, _, FindWinner_chain lucky w cells h, rfl, scanned_eq_takeWhile lucky cells,
    scanned_initial lucky cells, ?_, fun hno => scanned_of_no_match hno, ?_⟩
  · exact ((scanned_initial lucky cells).sublist.map Prod.fst).nodup (Chain.nodup h)
  · intro pre c post hsplit hpre hc
    rw [hsplit]
    exact scanned_split hpre hc

/-- C13 at the list of the scenario and the winning number 7. -/
theorem FindWinner_displays_scanned_records_witness :
    Chain scenarioWorld.heap scenarioWorld.pHead scenarioCells ∧
    ∃ r w', FindWinner 7 scenarioWorld = .ret r w' ∧
      w'.cout = scenarioWorld.cout
        ++ (scanned 7 scenarioCells).map
            (fun c => "\n" ++ c.2.name ++ " has lucky number " ++ toString c.2.lucky ++ "\n")
        ++ ["\n"] ∧
      scanned 7 scenarioCells
        = scenarioCells.takeWhile (fun c => decide (c.2.lucky ≠ 7))
          ++ (scenarioCells.find? (fun c => decide (c.2.lucky = 7))).toList ∧
      scanned 7 scenarioCells <+: scenarioCells ∧
      ((scanned 7 scenarioCells).map Prod.fst).Nodup ∧
      ((∀ c ∈ scenarioCells, c.2.lucky ≠ 7) → scanned 7 scenarioCells = scenarioCells) ∧
      (∀ pre c post, scenarioCells = pre ++ c :: post → (∀ d ∈ pre, d.2.lucky ≠ 7) →
        c.2.lucky = 7 → scanned 7 scenarioCells = pre ++ [c]) :=
  ⟨⟨rfl, rfl, rfl, rfl, rfl, rfl, rfl⟩,
    FindWinner_displays_scanned_records scenarioWorld scenarioCells
      ⟨rfl, rfl, rfl, rfl, rfl, rfl, rfl⟩ 7⟩

/-! ## Records stay as they are -/

theorem Chain.set_other {heap : List ListItem} (p : Nat) (x : ListItem) :
    ∀ {cells : List (Nat × ListItem)} {q : Option Nat},
      Chain heap q cells → p ∉ cells.map Prod.fst → Chain (heap.set p x) q cells := by
  intro cells
  induction cells with
  | nil => intro q h _; exact h
  | cons c rest ih =>
    intro q h hp
    rw [List.map_cons, List.mem_cons, not_or] at hp
    refine ⟨h.1, ?_, ih h.2.2 hp.2⟩
    rw [List.getElem?_set_ne hp.1]
    exact h.2.1

theorem AddItem_live (pItem : Nat) (w : World) (hlive : pItem < w.heap.length) :
    AddItem pItem w =
      .ret () { w with
        heap := w.heap.set pItem { w.heap[pItem] with pNext := w.pHead }
        pHead := some pItem } := by
  have hget : w.heap[pItem]? = some w.heap[pItem] := List.getElem?_eq_getElem hlive
  simp [AddItem, store, hget]

theorem AddItem_chain (pItem : Nat) (w : World) (cells : List (Nat × ListItem))
    (hlive : pItem < w.heap.length) (h : Chain w.heap w.pHead cells)
    (hnew : pItem ∉ cells.map Prod.fst) :
    Chain (w.heap.set pItem { w.heap[pItem] with pNext := w.pHead }) (some pItem)
      ((pItem, { w.heap[pItem] with pNext := w.pHead }) :: cells) := by
  refine ⟨rfl, ?_, Chain.set_other pItem _ h hnew⟩
  simp [hlive]

theorem FindWinner.loop_frame (lucky : Int) :
    ∀ (fuel : Nat) (p : Option Nat) (w : World) (r : Option Nat) (w' : World),
      FindWinner.loop lucky fuel p w = .ret r w' →
      w'.heap = w.heap ∧ w'.pHead = w.pHead := by
  intro fuel
  induction fuel with
  | zero =>
    intro p w r w' h
    cases p with
    | none =>
      simp only [FindWinner.loop, Run.ret.injEq] at h
      rw [← h.2]
      exact ⟨rfl, rfl⟩
    | some a => simp [FindWinner.loop] at h
  | succ fuel ih =>
    intro p w r w' h
    cases p with
    | none =>
      simp only [FindWinner.loop, Run.ret.injEq] at h
      rw [← h.2]
      exact ⟨rfl, rfl⟩
    | some a =>
      cases hget : w.heap[a]? with
      | none => simp [FindWinner.loop, hget] at h
      | some it =>
        by_cases hl : it.lucky = lucky
        · simp only [FindWinner.loop, hget, hl, if_true, Run.ret.injEq] at h
          rw [← h.2]
          exact ⟨rfl, rfl⟩
        · simp only [FindWinner.loop, hget, hl, if_false] at h
          exact ih it.pNext { w with cout := w.cout ++ [itemLine it] } r w' h

theorem FindWinner_frame (lucky : Int) (w : World) (r : Option Nat) (w' : World)
    (h : FindWinner lucky w = .ret r w') : w'.heap = w.heap ∧ w'.pHead = w.pHead := by
  rw [FindWinner] at h
  cases hloop : FindWinner.loop lucky (w.heap.length + 1) w.pHead w with
  | stuck => rw [hloop] at h; exact Run.noConfusion h
  | exited code w1 => rw [hloop] at h; exact Run.noConfusion h
  | ret r1 w1 =>
    rw [hloop] at h
    simp only [Run.bind, Run.ret.injEq] at h
    rw [← h.2]
    exact FindWinner.loop_frame lucky _ _ _ _ w1 hloop

theorem DisplayResults_frame (pWinner : Option Nat) (lucky : Int) (w : World) (code : Int)
    (w' : World) (h : DisplayResults pWinner lucky w = .ret code w') :
    w'.heap = w.heap ∧ w'.pHead = w.pHead := by
  cases pWinner with
  | none =>
    simp only [DisplayResults, Run.ret.injEq] at h
    rw [← h.2]
    exact ⟨rfl, rfl⟩
  | some a =>
    cases hget : w.heap[a]? with
    | none => simp [DisplayResults, hget] at h
    | some it =>
      simp only [DisplayResults, hget, Run.ret.injEq] at h
      rw [← h.2]
      exact ⟨rfl, rfl⟩

/-- C14: in every world with a well-formed list, `AddItem` of a live record that is
not in the list returns and leaves every record of the list, and every record other than
the new one, as it was; of the new record only the next link changes, to the old head,
and the head becomes the new record.  `FindWinner` returns and leaves the store and the
head as they were, and so does `DisplayResults`, called with the result of `FindWinner`
or with any pointer with which it returns. -/
theorem records_immutable (w : World) (cells : List (Nat × ListItem))
    (h : Chain w.heap w.pHead cells) (pItem : Nat) (hlive : pItem < w.heap.length)
    (hnew : pItem ∉ cells.map Prod.fst) (lucky : Int) :
    (∃ w' it, AddItem pItem w = .ret () w' ∧
      (∀ c ∈ cells, w'.heap[c.1]? = some c.2) ∧
      (∀ a, a ≠ pItem → w'.heap[a]? = w.heap[a]?) ∧
      w.heap[pItem]? = some it ∧
      w'.heap[pItem]? = some { name := it.name, lucky := it.lucky, pNext := w.pHead } ∧
      w'.pHead = some pItem ∧ w'.heap.length = w.heap.length) ∧
    (∃ r w', FindWinner lucky w = .ret r w' ∧ w'.heap = w.heap ∧ w'.pHead = w.pHead ∧
      ∃ code w'', DisplayResults r lucky w' = .ret code w'' ∧
        w''.heap = w.heap ∧ w''.pHead = w.pHead) ∧
    (∀ pWinner code w', DisplayResults pWinner lucky w = .ret code w' →
      w'.heap = w.heap ∧ w'.pHead = w.pHead) := by
  refine ⟨⟨_, w.heap[pItem], AddItem_live pItem w hlive, ?_, ?_, ?_, ?_, rfl, ?_⟩, ?_, ?_⟩
  · intro c hc
    have hne : pItem ≠ c.1 := fun heq => hnew (heq ▸ List.mem_map_of_mem Prod.fst hc)
    show (w.heap.set pItem _)[c.1]? = some c.2
    rw [List.getElem?_set_ne hne]
    exact Chain.mem_heap h c hc
  · intro a ha
    show (w.heap.set pItem _)[a]? = w.heap[a]?
    rw [List.getElem?_set_ne (Ne.symm ha)]
  · exact List.getElem?_eq_getElem hlive
  · show (w.heap.set pItem _)[pItem]? = _
    rw [List.getElem?_set_self hlive]
  · show (w.heap.set pItem _).length = w.heap.length
    rw [List.length_set]
  · have hrun := FindWinner_chain lucky w cells h
    refine ⟨_, _, hrun, rfl, rfl, ?_⟩
    cases hfind : firstMatch lucky cells with
    | none => exact ⟨_, _, rfl, rfl, rfl⟩
    | some c =>
      have hget : w.heap[c.1]? = some c.2 := Chain.mem_heap h c (firstMatch_mem hfind).1
      refine ⟨0, { w with cout := w.cout ++ (scanned lucky cells).map (fun c => itemLine c.2)
        ++ ["\n"] ++ [winnerLine c.2] }, ?_, rfl, rfl⟩
      simp only [Option.map_some', DisplayResults, hget]
      rfl
  · intro pWinner code w' hret
    exact DisplayResults_frame pWinner lucky w code w' hret

/-- C14 at the world in which the record of Cy is about to be added in front of Bo and
Ann. -/
theorem records_immutable_witness :
    Chain beforeAddWorld.heap beforeAddWorld.pHead beforeAddCells ∧
    2 < beforeAddWorld.heap.length ∧
    2 ∉ beforeAddCells.map Prod.fst ∧
    ∃ w' it, AddItem 2 beforeAddWorld = .ret () w' ∧
      (∀ c ∈ beforeAddCells, w'.heap[c.1]? = some c.2) ∧
      (∀ a, a ≠ 2 → w'.heap[a]? = beforeAddWorld.heap[a]?) ∧
      beforeAddWorld.heap[2]? = some it ∧
      w'.heap[2]? = some { name := it.name, lucky := it.lucky, pNext := beforeAddWorld.pHead } ∧
      w'.pHead = some 2 ∧ w'.heap.length = beforeAddWorld.heap.length :=
  ⟨⟨rfl, rfl, rfl, rfl, rfl⟩, by decide, by decide,
    (records_immutable beforeAddWorld beforeAddCells ⟨rfl, rfl, rfl, rfl, rfl⟩ 2
      (by decide) (by decide) 7).1⟩

/-! ## The invariant of the build phase -/

theorem Run.bind_eq_ret {α β : Type} {r : Run α} {k : α → World → Run β} {b : β} {w2 : World}
    (h : r.bind k = .ret b w2) : ∃ a w1, r = .ret a w1 ∧ k a w1 = .ret b w2 := by
  cases r with
  | ret a w1 => exact ⟨a, w1, rfl, h⟩
  | exited code w1 => exact Run.noConfusion h
  | stuck => exact Run.noConfusion h

theorem WellFormed.of_chain {w : World} {cells : List (Nat × ListItem)}
    (h : Chain w.heap w.pHead cells) : WellFormed cells.length w :=
  ⟨cells, h, Chain.nodup h, rfl⟩

theorem WellFormed.pushed {n : Nat} {w : World} (i : Int) (h : WellFormed n w) :
    WellFormed (n + 1) (pushed i w) := by
  obtain ⟨cells, hchain, _, hlen⟩ := h
  have := WellFormed.of_chain (pushed_chain i w cells hchain)
  rwa [List.length_cons, hlen] at this

theorem WellFormed.builtFrom {n : Nat} {w : World} (N : Nat) (i : Int) (h : WellFormed n w) :
    WellFormed (n + N) (builtFrom N i w) := by
  obtain ⟨cells, hchain, _, hlen⟩ := h
  have := WellFormed.of_chain (builtFrom_chain N i w cells hchain)
  rw [List.length_append, List.length_reverse, List.length_map, List.length_range, hlen,
    Nat.add_comm] at this
  exact this

/-- C15: the predicate `WellFormed n` (following the next links from the head reaches
`nullptr` after finitely many records, none visited twice, `n` records in all) holds
with `n` = 0 in the world at process start; `AddItem` of a live record that is not in
the list takes a world in which it holds with `n` to one in which it holds with `n + 1`,
and so does `AddItem` of the record `PrepareItem` has just created; hence it holds with
`n + N` after `CreateList(N)` run without allocation failure where it held with `n`, and
with 3 = `MAX_NAMES` after the call of `CreateList` in `main`. -/
theorem wellFormed_is_invariant :
    (∀ cin rand allocFails, WellFormed 0 (initWorld cin rand allocFails)) ∧
    (∀ n w pItem, WellFormed n w → pItem < w.heap.length →
      (∀ cells, Chain w.heap w.pHead cells → pItem ∉ cells.map Prod.fst) →
      ∃ w', AddItem pItem w = .ret () w' ∧ WellFormed (n + 1) w') ∧
    (∀ n w numItem, WellFormed n w → w.allocFails w.heap.length = false →
      ∃ pItem w1 w2, PrepareItem numItem w = .ret pItem w1 ∧
        AddItem pItem w1 = .ret () w2 ∧ WellFormed (n + 1) w2) ∧
    (∀ (N n : Nat) w, WellFormed n w →
      (∀ k, k < N → w.allocFails (w.heap.length + k) = false) →
      ∃ w', CreateList (N : Int) w = .ret () w' ∧ WellFormed (n + N) w') ∧
    (∀ cin rand allocFails, (∀ k, k < 3 → allocFails k = false) →
      ∃ w', CreateList MAX_NAMES (initWorld cin rand allocFails) = .ret () w' ∧
        WellFormed 3 w' ∧ (3 : Int) ≤ MAX_NAMES) := by
  refine ⟨fun _ _ _ => ⟨[], rfl, List.nodup_nil, rfl⟩, ?_, ?_, ?_, ?_⟩
  · intro n w pItem hwf hlive hnew
    obtain ⟨cells, hchain, _, hlen⟩ := hwf
    refine ⟨_, AddItem_live pItem w hlive, ?_⟩
    have := WellFormed.of_chain (w := { w with
        heap := w.heap.set pItem { w.heap[pItem] with pNext := w.pHead }
        pHead := some pItem })
      (AddItem_chain pItem w cells hlive hchain (hnew cells hchain))
    rwa [List.length_cons, hlen] at this
  · intro n w numItem hwf hok
    have hiter := iteration_eq (numItem - 1) w hok (fun _ w2 => Run.ret () w2)
    rw [sub_add_cancel] at hiter
    obtain ⟨pItem, w1, hprep, hadd⟩ := Run.bind_eq_ret hiter
    obtain ⟨u, w2, hadd2, hret⟩ := Run.bind_eq_ret hadd
    have hw2 : w2 = pushed (numItem - 1) w := by
      simp only [Run.ret.injEq, true_and] at hret
      exact hret
    exact ⟨pItem, w1, w2, hprep, hadd2, hw2 ▸ WellFormed.pushed (numItem - 1) hwf⟩
  · intro N n w hwf hok
    have hrun := CreateList_eq (N : Int) w (by simpa using hok)
    rw [Int.toNat_ofNat] at hrun
    exact ⟨_, hrun, WellFormed.builtFrom N 0
      (w := { w with cout := w.cout ++ [headerLine N] }) hwf⟩
  · intro cin rand allocFails hok
    refine ⟨_, CreateList_main cin rand allocFails hok, ?_, by decide⟩
    have h0 : WellFormed 0 (headerWorld cin rand allocFails) := ⟨[], rfl, List.nodup_nil, rfl⟩
    have := WellFormed.builtFrom 3 0 h0
    rwa [Nat.zero_add] at this

/-- C15 at the world in which the record of Cy is about to be added in front of Bo and
Ann: the invariant holds with 2 records before `AddItem` and with 3 after it. -/
theorem wellFormed_is_invariant_witness :
    WellFormed 2 beforeAddWorld ∧ 2 < beforeAddWorld.heap.length ∧
    (∀ cells, Chain beforeAddWorld.heap beforeAddWorld.pHead cells →
      2 ∉ cells.map Prod.fst) ∧
    ∃ w', AddItem 2 beforeAddWorld = .ret () w' ∧ WellFormed (2 + 1) w' := by
  have hchain : Chain beforeAddWorld.heap beforeAddWorld.pHead beforeAddCells :=
    ⟨rfl, rfl, rfl, rfl, rfl⟩
  have hwf : WellFormed 2 beforeAddWorld := ⟨beforeAddCells, hchain, by decide, rfl⟩
  have hnew : ∀ cells, Chain beforeAddWorld.heap beforeAddWorld.pHead cells →
      2 ∉ cells.map Prod.fst := by
    intro cells hc
    rw [Chain.unique hc hchain]
    decide
  exact ⟨hwf, by decide, hnew,
    wellFormed_is_invariant.2.1 2 beforeAddWorld 2 hwf (by decide) hnew⟩

/-! ## Prompts, tokens and draws -/

theorem builtFrom_new_record (n : Nat) (i : Int) (w : World) (k : Nat) (hk : k < n) :
    (builtFrom n i w).heap[w.heap.length + k]? = some (cellAt w k).2 := by
  rw [builtFrom_heap, List.getElem?_append_right (Nat.le_add_right _ _),
    Nat.add_sub_cancel_left, List.getElem?_map, List.getElem?_range hk]
  rfl

theorem CreateList_effects (N : Nat) (w : World)
    (hok : ∀ k, k < N → w.allocFails (w.heap.length + k) = false) :
    ∃ w', CreateList (N : Int) w = .ret () w' ∧
      w'.cout = w.cout ++ [headerLine N]
        ++ (List.range N).map (fun k : Nat => promptLine ((k : Int) + 1)) ∧
      w'.cin = w.cin.drop N ∧
      w'.randPos = w.randPos + N ∧ w'.rand = w.rand ∧
      (∀ k, k < N → ∃ it, w'.heap[w.heap.length + k]? = some it ∧
        it.name = w.cin.getD k "" ∧ it.lucky = cRem (w.rand (w.randPos + k)) MAX_LUCKY + 1) := by
  have hrun := CreateList_eq (N : Int) w (by simpa using hok)
  rw [Int.toNat_ofNat] at hrun
  refine ⟨_, hrun, ?_, ?_, ?_, ?_, ?_⟩
  · simp [builtFrom_cout]
  · simp [builtFrom_cin]
  · simp [builtFrom_randPos]
  · simp [builtFrom_rand]
  · intro k hk
    exact ⟨_, builtFrom_new_record N 0 { w with cout := w.cout ++ [headerLine N] } k hk,
      rfl, rfl⟩

/-- C16, amended: for every `N` and every world, when no allocation fails `CreateList(N)`
returns, having appended to the output the header once and then exactly `N` prompts,
numbered 1, 2, ..., `N` in that order, and having taken exactly `N` values off the random
stream, one per prompt.  It takes one token off the input per prompt when the input
supplies at least `N` tokens, `N` tokens in all, and never more than one per prompt:
the tokens left are the input without its first `N` tokens, so the number taken is the
smaller of `N` and the number supplied.  The record created at the prompt numbered
`k + 1` holds the draw at position `k` and, when the input has a token at position `k`,
that token as name.  The call in `main` has `N` = `MAX_NAMES` = 3: its output is the
header and the prompts 1, 2, 3, three values are drawn, and when the input supplies at
least three tokens exactly three are read, the names of the three records. -/
theorem CreateList_prompts (N : Nat) (w : World)
    (hok : ∀ k, k < N → w.allocFails (w.heap.length + k) = false)
    (cin : List String) (rand : Nat → Int) (allocFails : Nat → Bool)
    (hall : ∀ k, k < 3 → allocFails k = false) :
    (∃ w', CreateList (N : Int) w = .ret () w' ∧
      w'.cout = w.cout ++ [headerLine N]
        ++ (List.range N).map (fun k : Nat => promptLine ((k : Int) + 1)) ∧
      w'.cin = w.cin.drop N ∧
      w'.cin.length + min N w.cin.length = w.cin.length ∧
      (N ≤ w.cin.length → w'.cin.length + N = w.cin.length) ∧
      w'.randPos = w.randPos + N ∧ w'.rand = w.rand ∧
      (∀ k, k < N → ∃ it, w'.heap[w.heap.length + k]? = some it ∧
        it.name = w.cin.getD k "" ∧
        (∀ tok, w.cin[k]? = some tok → it.name = tok) ∧
        it.lucky = cRem (w.rand (w.randPos + k)) MAX_LUCKY + 1)) ∧
    (∃ w', CreateList MAX_NAMES (initWorld cin rand allocFails) = .ret () w' ∧
      w'.cout = [headerLine 3, promptLine 1, promptLine 2, promptLine 3] ∧
      w'.cin = cin.drop 3 ∧ w'.randPos = 3 ∧
      (3 ≤ cin.length → w'.cin.length + 3 = cin.length ∧
        ∀ k, k < 3 → ∃ it tok, w'.heap[k]? = some it ∧ cin[k]? = some tok ∧
          it.name = tok)) := by
  have htok : ∀ (l : List String) (k : Nat) (tok : String),
      l[k]? = some tok → l.getD k "" = tok := by
    intro l k tok h
    rw [List.getD_eq_getElem?_getD, h]
    rfl
  constructor
  · obtain ⟨w', hrun, hcout, hcin, hpos, hrand, hrec⟩ := CreateList_effects N w hok
    refine ⟨w', hrun, hcout, hcin, ?_, ?_, hpos, hrand, ?_⟩
    · rw [hcin, List.length_drop]
      omega
    · intro hlen
      rw [hcin, List.length_drop]
      omega
    · intro k hk
      obtain ⟨it, hget, hname, hlucky⟩ := hrec k hk
      exact ⟨it, hget, hname, fun tok h => by rw [hname]; exact htok _ _ _ h, hlucky⟩
  · obtain ⟨w', hrun, hcout, hcin, hpos, _, hrec⟩ :=
      CreateList_effects 3 (initWorld cin rand allocFails)
        (by simpa [initWorld] using hall)
    refine ⟨w', hrun, ?_, hcin, ?_, ?_⟩
    · rw [hcout]
      have hr : List.range 3 = [0, 1, 2] := rfl
      simp [initWorld, hr]
    · rw [hpos]
      simp [initWorld]
    · intro hlen
      constructor
      · rw [hcin]
        simp only [initWorld, List.length_drop]
        omega
      · intro k hk
        obtain ⟨it, hget, hname, _⟩ := hrec k hk
        have h0 : (initWorld cin rand allocFails).heap.length + k = k := by
          simp [initWorld]
        rw [h0] at hget
        have hlt : k < cin.length := by omega
        refine ⟨it, cin[k], hget, List.getElem?_eq_getElem hlt, ?_⟩
        rw [hname]
        exact htok _ _ _ (List.getElem?_eq_getElem hlt)

/-- C16, amended, at three records created from the start of the scenario. -/
theorem CreateList_prompts_witness :
    (∀ k, k < 3 → (initWorld scenarioNames scenarioRand noAllocFailure).allocFails
      ((initWorld scenarioNames scenarioRand noAllocFailure).heap.length + k) = false) ∧
    (∀ k, k < 3 → noAllocFailure k = false) ∧
    (∃ w', CreateList ((3 : Nat) : Int) (initWorld scenarioNames scenarioRand noAllocFailure)
        = .ret () w' ∧
      w'.cout = (initWorld scenarioNames scenarioRand noAllocFailure).cout
        ++ [headerLine ((3 : Nat) : Int)]
        ++ (List.range 3).map (fun k : Nat => promptLine ((k : Int) + 1)) ∧
      w'.cin = (initWorld scenarioNames scenarioRand noAllocFailure).cin.drop 3 ∧
      w'.cin.length + min 3 (initWorld scenarioNames scenarioRand noAllocFailure).cin.length
        = (initWorld scenarioNames scenarioRand noAllocFailure).cin.length ∧
      (3 ≤ (initWorld scenarioNames scenarioRand noAllocFailure).cin.length →
        w'.cin.length + 3 = (initWorld scenarioNames scenarioRand noAllocFailure).cin.length) ∧
      w'.randPos = (initWorld scenarioNames scenarioRand noAllocFailure).randPos + 3 ∧
      w'.rand = (initWorld scenarioNames scenarioRand noAllocFailure).rand ∧
      (∀ k, k < 3 → ∃ it,
        w'.heap[(initWorld scenarioNames scenarioRand noAllocFailure).heap.length + k]?
          = some it ∧
        it.name = (initWorld scenarioNames scenarioRand noAllocFailure).cin.getD k "" ∧
        (∀ tok, (initWorld scenarioNames scenarioRand noAllocFailure).cin[k]? = some tok →
          it.name = tok) ∧
        it.lucky = cRem ((initWorld scenarioNames scenarioRand noAllocFailure).rand
          ((initWorld scenarioNames scenarioRand noAllocFailure).randPos + k)) MAX_LUCKY + 1)) ∧
    (∃ w', CreateList MAX_NAMES (initWorld scenarioNames scenarioRand noAllocFailure)
        = .ret () w' ∧
      w'.cout = [headerLine 3, promptLine 1, promptLine 2, promptLine 3] ∧
      w'.cin = scenarioNames.drop 3 ∧ w'.randPos = 3 ∧
      (3 ≤ scenarioNames.length → w'.cin.length + 3 = scenarioNames.length ∧
        ∀ k, k < 3 → ∃ it tok, w'.heap[k]? = some it ∧ scenarioNames[k]? = some tok ∧
          it.name = tok)) :=
  ⟨fun _ _ => rfl, fun _ _ => rfl,
    CreateList_prompts 3 (initWorld scenarioNames scenarioRand noAllocFailure)
      (fun _ _ => rfl) scenarioNames scenarioRand noAllocFailure (fun _ _ => rfl)⟩

/-- C16 as stated fails: when the input holds the single token "Ann", the call of
`CreateList` in `main` issues its three prompts and draws three values, but only one
token is there to be taken, not one per prompt: the input is empty afterwards and the
records created at the second and third prompt have no name. -/
theorem short_input_three_prompts_one_token :
    ∃ w', CreateList MAX_NAMES (initWorld ["Ann"] scenarioRand noAllocFailure) = .ret () w' ∧
      w'.cout = [headerLine 3, promptLine 1, promptLine 2, promptLine 3] ∧
      w'.randPos = 3 ∧
      (initWorld ["Ann"] scenarioRand noAllocFailure).cin.length = 1 ∧
      w'.cin = [] ∧
      w'.cin.length + 3 ≠ (initWorld ["Ann"] scenarioRand noAllocFailure).cin.length ∧
      (∃ it, w'.heap[0]? = some it ∧ it.name = "Ann") ∧
      (∃ it, w'.heap[1]? = some it ∧ it.name = "") ∧
      (∃ it, w'.heap[2]? = some it ∧ it.name = "") := by
  obtain ⟨w', hrun, hcout, hcin, hpos, _, hrec⟩ :=
    CreateList_effects 3 (initWorld ["Ann"] scenarioRand noAllocFailure) (fun _ _ => rfl)
  have hempty : w'.cin = [] := by rw [hcin]; rfl
  obtain ⟨it0, hget0, hname0, _⟩ := hrec 0 (by decide)
  obtain ⟨it1, hget1, hname1, _⟩ := hrec 1 (by decide)
  obtain ⟨it2, hget2, hname2, _⟩ := hrec 2 (by decide)
  refine ⟨w', hrun, ?_, ?_, rfl, hempty, ?_, ⟨it0, hget0, hname0⟩, ⟨it1, hget1, hname1⟩,
    ⟨it2, hget2, hname2⟩⟩
  · rw [hcout]
    have hr : List.range 3 = [0, 1, 2] := rfl
    simp [initWorld, hr]
  · rw [hpos]
    rfl
  · rw [hempty]
    decide

theorem mainCells_mem (cin : List String) (rand : Nat → Int) (allocFails : Nat → Bool)
    (c : Nat × ListItem) :
    c ∈ mainCells cin rand allocFails ↔
      ∃ k, k < 3 ∧ c = (k, { name := cin.getD k "", lucky := luckyOf (rand k),
                             pNext := if k = 0 then none else some (k - 1) }) := by
  have hcell : ∀ k, cellAt (headerWorld cin rand allocFails) k
      = (k, { name := cin.getD k "", lucky := luckyOf (rand k),
              pNext := if k = 0 then none else some (k - 1) }) := by
    intro k
    simp [cellAt, entry, headerWorld, initWorld]
  simp only [mainCells, List.mem_reverse, List.mem_map, List.mem_range, hcell]
  constructor
  · rintro ⟨k, hk, rfl⟩
    exact ⟨k, hk, rfl⟩
  · rintro ⟨k, hk, rfl⟩
    exact ⟨k, hk, rfl⟩

theorem main_final_world (cin : List String) (rand : Nat → Int) (allocFails : Nat → Bool)
    (hok : ∀ k, k < 3 → allocFails k = false) :
    ∃ c w, main cin rand allocFails = .ret c w ∧
      w.heap = (builtFrom 3 0 (headerWorld cin rand allocFails)).heap ∧
      w.randPos = 4 ∧
      (∃ rest, w.cout = (drawnWorld cin rand allocFails).cout ++ rest) := by
  rcases main_returns cin rand allocFails hok with ⟨_, hret⟩ | ⟨cell, _, hret⟩
  · exact ⟨_, _, hret, rfl, rfl,
      (scanned (luckyOf (rand 3)) (mainCells cin rand allocFails)).map (fun c => itemLine c.2)
        ++ ["\n", noWinnerLine (luckyOf (rand 3))], by simp [scannedWorld]⟩
  · exact ⟨_, _, hret, rfl, rfl,
      (scanned (luckyOf (rand 3)) (mainCells cin rand allocFails)).map (fun c => itemLine c.2)
        ++ ["\n", winnerLine cell.2], by simp [scannedWorld]⟩

/-- C17: in every complete run of `main` on the random stream `rand`, the record of the
player entered at position `i` (0, 1, 2) holds the lucky number `rand i % 10 + 1`; the
winning number announced, searched for and reported is `rand 3 % 10 + 1`, computed from
the first value of the stream not used for a record, and the announcement follows the
three prompts; four values of the stream are consumed in all. -/
theorem winning_number_is_fourth_draw (cin : List String) (rand : Nat → Int)
    (allocFails : Nat → Bool) (hok : ∀ k, k < 3 → allocFails k = false) :
    ∃ c w, main cin rand allocFails = .ret c w ∧
      (∀ i, i < 3 → ∃ it, w.heap[i]? = some it ∧ it.name = cin.getD i "" ∧
        it.lucky = cRem (rand i) 10 + 1) ∧
      w.cout[4]? = some (winningLine (cRem (rand 3) 10 + 1)) ∧
      w.randPos = 4 ∧
      main cin rand allocFails =
        ((FindWinner (cRem (rand 3) 10 + 1) (drawnWorld cin rand allocFails)).bind
          fun pItem w3 => DisplayResults pItem (cRem (rand 3) 10 + 1) w3) := by
  obtain ⟨c, w, hret, hheap, hpos, rest, hcout⟩ := main_final_world cin rand allocFails hok
  refine ⟨c, w, hret, ?_, ?_, hpos, main_eq cin rand allocFails hok⟩
  · intro i hi
    have hrec := builtFrom_new_record 3 0 (headerWorld cin rand allocFails) i hi
    rw [← hheap] at hrec
    have h0 : (headerWorld cin rand allocFails).heap.length + i = i := by
      simp [headerWorld, initWorld]
    rw [h0] at hrec
    refine ⟨_, hrec, rfl, ?_⟩
    show luckyOf (rand (0 + i)) = cRem (rand i) 10 + 1
    rw [Nat.zero_add]
    rfl
  · rw [hcout, drawnWorld_cout, List.getElem?_append_left (by simp)]
    rfl

/-- C17 at the run of the scenario. -/
theorem winning_number_is_fourth_draw_witness :
    (∀ k, k < 3 → noAllocFailure k = false) ∧
    ∃ c w, main scenarioNames scenarioRand noAllocFailure = .ret c w ∧
      (∀ i, i < 3 → ∃ it, w.heap[i]? = some it ∧ it.name = scenarioNames.getD i "" ∧
        it.lucky = cRem (scenarioRand i) 10 + 1) ∧
      w.cout[4]? = some (winningLine (cRem (scenarioRand 3) 10 + 1)) ∧
      w.randPos = 4 ∧
      main scenarioNames scenarioRand noAllocFailure =
        ((FindWinner (cRem (scenarioRand 3) 10 + 1)
            (drawnWorld scenarioNames scenarioRand noAllocFailure)).bind
          fun pItem w3 => DisplayResults pItem (cRem (scenarioRand 3) 10 + 1) w3) :=
  ⟨fun _ _ => rfl,
    winning_number_is_fourth_draw scenarioNames scenarioRand noAllocFailure (fun _ _ => rfl)⟩

/-- C18: `CreateList` may be run on a list that is not empty.  In every world with a
well-formed list `L`, `CreateList(N)` run without allocation failure returns and leaves
the list made of the `N` new records, in the reverse of the order of input, followed by
`L` with its records at their addresses and unchanged, so `|L| + N` records in all, and
every record that was in the store is as it was.  When `max` is not positive,
`CreateList(max)` returns having only printed the header: no record is created, no prompt
issued, no token and no random value consumed, and the list is `L`. -/
theorem CreateList_prepends (w : World) (cells : List (Nat × ListItem))
    (h : Chain w.heap w.pHead cells) (N : Nat)
    (hok : ∀ k, k < N → w.allocFails (w.heap.length + k) = false)
    (max : Int) (hmax : max ≤ 0) :
    (∃ w' fresh, CreateList (N : Int) w = .ret () w' ∧
      Chain w'.heap w'.pHead (fresh ++ cells) ∧
      fresh.length = N ∧ (fresh ++ cells).length = cells.length + N ∧
      fresh.map payload
        = ((List.range N).map
            (fun k => (w.cin.getD k "", cRem (w.rand (w.randPos + k)) MAX_LUCKY + 1))).reverse ∧
      (∀ a, a < w.heap.length → w'.heap[a]? = w.heap[a]?)) ∧
    (∃ w', CreateList max w = .ret () w' ∧
      w'.heap = w.heap ∧ w'.pHead = w.pHead ∧ w'.cin = w.cin ∧ w'.randPos = w.randPos ∧
      w'.cout = w.cout ++ [headerLine max] ∧
      Chain w'.heap w'.pHead cells) := by
  constructor
  · have hrun := CreateList_eq (N : Int) w (by simpa using hok)
    rw [Int.toNat_ofNat] at hrun
    have hchain := builtFrom_chain N 0 { w with cout := w.cout ++ [headerLine N] } cells h
    refine ⟨_, _, hrun, hchain, by simp, by simp [Nat.add_comm], ?_, ?_⟩
    · rw [List.map_reverse, List.map_map]
      rfl
    · intro a ha
      exact builtFrom_old_records N 0 { w with cout := w.cout ++ [headerLine N] } a ha
  · have hnot : ¬ (0 : Int) < max := not_lt.mpr hmax
    have hfuel : max.toNat = 0 := Int.toNat_of_nonpos hmax
    refine ⟨{ w with cout := w.cout ++ [headerLine max] }, ?_, rfl, rfl, rfl, rfl, rfl, h⟩
    rw [CreateList, hfuel, CreateList.loop]
    simp only [hnot, if_false]

/-- C18 at the world holding Bo and Ann, with one record added, and with `max` = 0. -/
theorem CreateList_prepends_witness :
    Chain beforeAddWorld.heap beforeAddWorld.pHead beforeAddCells ∧
    (∀ k, k < 1 → beforeAddWorld.allocFails (beforeAddWorld.heap.length + k) = false) ∧
    (0 : Int) ≤ 0 ∧
    (∃ w' fresh, CreateList ((1 : Nat) : Int) beforeAddWorld = .ret () w' ∧
      Chain w'.heap w'.pHead (fresh ++ beforeAddCells) ∧
      fresh.length = 1 ∧ (fresh ++ beforeAddCells).length = beforeAddCells.length + 1 ∧
      fresh.map payload
        = ((List.range 1).map
            (fun k => (beforeAddWorld.cin.getD k "",
              cRem (beforeAddWorld.rand (beforeAddWorld.randPos + k)) MAX_LUCKY + 1))).reverse ∧
      (∀ a, a < beforeAddWorld.heap.length → w'.heap[a]? = beforeAddWorld.heap[a]?)) ∧
    (∃ w', CreateList 0 beforeAddWorld = .ret () w' ∧
      w'.heap = beforeAddWorld.heap ∧ w'.pHead = beforeAddWorld.pHead ∧
      w'.cin = beforeAddWorld.cin ∧ w'.randPos = beforeAddWorld.randPos ∧
      w'.cout = beforeAddWorld.cout ++ [headerLine 0] ∧
      Chain w'.heap w'.pHead beforeAddCells) :=
  ⟨⟨rfl, rfl, rfl, rfl, rfl⟩, fun _ _ => rfl, le_refl 0,
    CreateList_prepends beforeAddWorld beforeAddCells ⟨rfl, rfl, rfl, rfl, rfl⟩ 1
      (fun _ _ => rfl) 0 (le_refl 0)⟩

/-! ## The result of a complete run -/

/-- The two outcomes of a complete run of `main`: nobody has the number drawn and the
run returns 2, or a player has it, is reported, and the run returns 0. -/
theorem main_cases (cin : List String) (rand : Nat → Int) (allocFails : Nat → Bool)
    (hok : ∀ k, k < 3 → allocFails k = false) :
    ((∀ i, i < 3 → luckyOf (rand i) ≠ luckyOf (rand 3)) ∧
      ∃ w, main cin rand allocFails = .ret 2 w ∧
        w.cout[4]? = some (winningLine (luckyOf (rand 3))) ∧
        w.cout.getLast? = some (noWinnerLine (luckyOf (rand 3)))) ∨
    (∃ i, i < 3 ∧ luckyOf (rand i) = luckyOf (rand 3) ∧
      ∃ w, main cin rand allocFails = .ret 0 w ∧
        w.cout[4]? = some (winningLine (luckyOf (rand 3))) ∧
        w.cout.getLast? = some ("\nThe winner is " ++ cin.getD i "" ++ " with lucky number "
          ++ toString (luckyOf (rand 3)) ++ "\n")) := by
  have hcout := drawnWorld_cout cin rand allocFails
  rcases main_returns cin rand allocFails hok with ⟨hnone, hret⟩ | ⟨cell, hsome, hret⟩
  · refine Or.inl ⟨?_, _, hret, ?_, ?_⟩
    · intro i hi
      exact firstMatch_eq_none.mp hnone _ ((mainCells_mem cin rand allocFails _).mpr ⟨i, hi, rfl⟩)
    · simp [scannedWorld, hcout]
    · simp [scannedWorld]
  · obtain ⟨hmem, hlucky⟩ := firstMatch_mem hsome
    obtain ⟨i, hi, hcell⟩ := (mainCells_mem cin rand allocFails cell).mp hmem
    subst hcell
    refine Or.inr ⟨i, hi, hlucky, _, hret, ?_, ?_⟩
    · simp [scannedWorld, hcout]
    · have hline : winnerLine
          { name := cin.getD i "", lucky := luckyOf (rand i),
            pNext := if i = 0 then none else some (i - 1) }
          = "\nThe winner is " ++ cin.getD i "" ++ " with lucky number "
            ++ toString (luckyOf (rand 3)) ++ "\n" := by
        have hl : luckyOf (rand i) = luckyOf (rand 3) := hlucky
        rw [winnerLine, hl]
      show ((scannedWorld cin rand allocFails).cout ++ [winnerLine
          { name := cin.getD i "", lucky := luckyOf (rand i),
            pNext := if i = 0 then none else some (i - 1) }]).getLast? = _
      rw [List.getLast?_concat, hline]

/-- C19: in every complete run of `main` (any input, any random stream, no allocation
failure) the run returns 0 or 2.  When the exit code is 0, the final line reports as
lucky number the winning number announced, and as name the name entered for a player
of this run whose lucky number is that number.  The exit code is 0 exactly when the
lucky number of at least one of the three players is the winning number, and 2 exactly
when none is. -/
theorem main_exit_code_iff_match (cin : List String) (rand : Nat → Int)
    (allocFails : Nat → Bool) (hok : ∀ k, k < 3 → allocFails k = false) :
    (∃ c w, main cin rand allocFails = .ret c w ∧ (c = 0 ∨ c = 2) ∧
      w.cout[4]? = some (winningLine (cRem (rand 3) MAX_LUCKY + 1))) ∧
    ((main cin rand allocFails).exitCode = some 0 →
      ∃ w i, main cin rand allocFails = .ret 0 w ∧ i < 3 ∧
        cRem (rand i) MAX_LUCKY + 1 = cRem (rand 3) MAX_LUCKY + 1 ∧
        w.cout.getLast? = some ("\nThe winner is " ++ cin.getD i "" ++ " with lucky number "
          ++ toString (cRem (rand 3) MAX_LUCKY + 1) ++ "\n")) ∧
    ((main cin rand allocFails).exitCode = some 0 ↔
      ∃ i, i < 3 ∧ cRem (rand i) MAX_LUCKY + 1 = cRem (rand 3) MAX_LUCKY + 1) ∧
    ((main cin rand allocFails).exitCode = some 2 ↔
      ∀ i, i < 3 → cRem (rand i) MAX_LUCKY + 1 ≠ cRem (rand 3) MAX_LUCKY + 1) := by
  rcases main_cases cin rand allocFails hok with
    ⟨hno, w, hret, hann, _⟩ | ⟨i, hi, hmatch, w, hret, hann, hlast⟩
  · have hcode : (main cin rand allocFails).exitCode = some 2 := by rw [hret]; rfl
    refine ⟨⟨2, w, hret, Or.inr rfl, hann⟩, ?_, ?_, ?_⟩
    · intro h0
      rw [hcode] at h0
      exact absurd h0 (by decide)
    · constructor
      · intro h0
        rw [hcode] at h0
        exact absurd h0 (by decide)
      · rintro ⟨j, hj, hm⟩
        exact absurd hm (hno j hj)
    · exact ⟨fun _ => hno, fun _ => hcode⟩
  · have hcode : (main cin rand allocFails).exitCode = some 0 := by rw [hret]; rfl
    refine ⟨⟨0, w, hret, Or.inl rfl, hann⟩, fun _ => ⟨w, i, hret, hi, hmatch, hlast⟩, ?_, ?_⟩
    · exact ⟨fun _ => ⟨i, hi, hmatch⟩, fun _ => hcode⟩
    · constructor
      · intro h2
        rw [hcode] at h2
        exact absurd h2 (by decide)
      · intro hno
        exact absurd hmatch (hno i hi)

/-- C19 at the run of the scenario. -/
theorem main_exit_code_iff_match_witness :
    (∀ k, k < 3 → noAllocFailure k = false) ∧
    (∃ c w, main scenarioNames scenarioRand noAllocFailure = .ret c w ∧ (c = 0 ∨ c = 2) ∧
      w.cout[4]? = some (winningLine (cRem (scenarioRand 3) MAX_LUCKY + 1))) ∧
    ((main scenarioNames scenarioRand noAllocFailure).exitCode = some 0 →
      ∃ w i, main scenarioNames scenarioRand noAllocFailure = .ret 0 w ∧ i < 3 ∧
        cRem (scenarioRand i) MAX_LUCKY + 1 = cRem (scenarioRand 3) MAX_LUCKY + 1 ∧
        w.cout.getLast? = some ("\nThe winner is " ++ scenarioNames.getD i ""
          ++ " with lucky number "
          ++ toString (cRem (scenarioRand 3) MAX_LUCKY + 1) ++ "\n")) ∧
    ((main scenarioNames scenarioRand noAllocFailure).exitCode = some 0 ↔
      ∃ i, i < 3 ∧ cRem (scenarioRand i) MAX_LUCKY + 1 = cRem (scenarioRand 3) MAX_LUCKY + 1) ∧
    ((main scenarioNames scenarioRand noAllocFailure).exitCode = some 2 ↔
      ∀ i, i < 3 → cRem (scenarioRand i) MAX_LUCKY + 1 ≠ cRem (scenarioRand 3) MAX_LUCKY + 1) :=
  ⟨fun _ _ => rfl,
    main_exit_code_iff_match scenarioNames scenarioRand noAllocFailure (fun _ _ => rfl)⟩

end LinkedListDemo
